import Mathlib

/-!
# Verification of the `itsa/event` publish/subscribe dispatcher

A shallow embedding of `src/event-base.js`.  The registries (`_subs`, `_ce`,
`_notifiers`, `_detachNotifiers`, `_runningEvents`) are modelled as association
lists inside an explicit state record `EvState`; subscriber callbacks, the
`defaultFn`/`preventedFn` of a custom-event definition, and the once-wrappers
built by `onceBefore`/`onceAfter` are modelled by a small action language
(`Action`, `Callback`) so that the dispatcher `emitD` (the embedding of
`Event._emit`) can execute them, including re-entrant `emit` calls, which are
handled with a fuel parameter.  Invocations of user callbacks, default
functions and notifiers are recorded in an observation trace.
-/

namespace ItsaEvent

/-! ## Association-list helpers (JS plain-object hashes keyed by strings). -/

/-- JS object property assignment `o[k] = v`: replace the value if the key is
present (keeping its position), else append the key. -/
def setk {κ α : Type} [DecidableEq κ] : List (κ × α) → κ → α → List (κ × α)
  | [], k, v => [(k, v)]
  | (k', v') :: t, k, v => if k' = k then (k, v) :: t else (k', v') :: setk t k v

/-- JS `delete o[k]`: drop the entry with key `k`. -/
def erasek {κ α : Type} [DecidableEq κ] : List (κ × α) → κ → List (κ × α)
  | [], _ => []
  | (k', v') :: t, k => if k' = k then t else (k', v') :: erasek t k

/-! ## Topic matching (the regular expressions of `event-base.js`). -/

/-- One character of `(?:\w|-|#)` in the topic regular expressions. -/
def isWordChar (c : Char) : Bool := c.isAlphanum || c = '_' || c = '-' || c = '#'

/-- Split a character list at every `':'` (the decomposition the anchored
topic regular expressions perform, since `':'` can occur in no fragment). -/
def splitColon : List Char → List (List Char)
  | [] => [[]]
  | c :: rest =>
      let r := splitColon rest
      if c = ':' then [] :: r
      else
        match r with
        | h :: t => (c :: h) :: t
        | [] => [[c]]

/-- The fragments of a topic string, as strings. -/
def topicParts (s : String) : List String := (splitColon s.data).map String.mk

/-- Whether the topic string contains a `':'` (`indexOf(':') !== -1`). -/
def hasColon (s : String) : Bool := s.data.contains ':'

/-- A nonempty run of word characters, i.e. `(?:\w|-|#)+`. -/
def partWord (s : String) : Bool := !s.data.isEmpty && s.data.all isWordChar

/-- A topic fragment of `REGEXP_WILDCARD_CUSTOMEVENT`: a word run or `*`. -/
def partOk (s : String) : Bool := s = "*" || partWord s

/-- `REGEXP_CUSTOMEVENT = /^((?:\w|-|#)+):((?:\w|-|#)+)$/` — a concrete
`emitterName:eventName` topic (no wildcards); returns the two capture groups. -/
def parseCE (s : String) : Option (String × String) :=
  match topicParts s with
  | [em, ev] => if partWord em && partWord ev then some (em, ev) else none
  | _ => none

/-- `REGEXP_WILDCARD_CUSTOMEVENT = /^(?:((?:(?:\w|-|#)+)|\*):)?((?:(?:\w|-|#)+)|\*)$/`:
optional emitter fragment (word run or `*`) followed by an event fragment. -/
def parseWildcardCE (s : String) : Option (Option String × String) :=
  match topicParts s with
  | [ev] => if partOk ev then some (none, ev) else none
  | [em, ev] => if partOk em && partOk ev then some (some em, ev) else none
  | _ => none

/-- `customEvent.replace(REGEXP_EVENTNAME_WITH_SEMICOLON, ':*')` for a concrete
topic: replace the trailing `:eventName` by `:*`. -/
def replaceEventWithStar (ce : String) : String :=
  match parseCE ce with
  | some (em, _) => em ++ ":*"
  | none => ce

/-- `customEvent.replace(REGEXP_EMITTERNAME_WITH_SEMICOLON, '*:')` for a
concrete topic: replace the leading `emitterName:` by `*:`. -/
def replaceEmitterWithStar (ce : String) : String :=
  match parseCE ce with
  | some (_, ev) => "*:" ++ ev
  | none => ce

/-! ## Data model. -/

/-- The value stored by `status.halted`/`status.defaultPrevented`:
`reason || true` — a nonempty reason string, or `true` (also for a falsy
reason such as the empty string). -/
inductive HaltVal where
  | reason (s : String)
  | yes
deriving DecidableEq, Repr

/-- Evaluate the JS expression `reason || true`. -/
def mkHaltVal : Option String → HaltVal
  | some s => if s = "" then .yes else .reason s
  | none => .yes

/-- The `e.status` record accumulated during one emission.  Fields that JS
leaves `undefined` until assigned are modelled with `Option`/`false`. -/
structure Status where
  ok : Option Bool := none
  defaultFn : Bool := false
  preventedFn : Bool := false
  halted : Option HaltVal := none
  defaultPrevented : Option HaltVal := none
  defaultPreventedContinue : Option HaltVal := none
  unSilencable : Bool := false
deriving DecidableEq, Repr

/-- Actions a modelled callback (subscriber, `defaultFn`, `preventedFn`) can
perform on the event object and the dispatcher: the three mutators installed by
`_setEventObjProperty`, setting `e.silent`, or re-entrantly calling
`Event.emit`. -/
inductive Action where
  | haltA (reason : Option String)
  | preventDefaultA (reason : Option String)
  | preventDefaultContinueA (reason : Option String)
  | silentA
  | emitA (topic : String)
deriving DecidableEq, Repr

/-- A subscriber callback: either a plain function (identified by `id`, with a
body of actions), or the wrapper built by `onceBefore`/`onceAfter`, which
consults and sets the shared `handler._detached` flag (index `flagId`) around
the wrapped user callback `id`. -/
inductive Callback where
  | plain (id : Nat) (body : List Action)
  | onceWrap (flagId : Nat) (id : Nat) (body : List Action)
deriving DecidableEq, Repr

/-- A subscriber record as stored in `_subs` (`item` in `_addSubscriber`):
owner `o` (object identity; `0` is the Event instance itself), callback `cb`,
filter `f` (modelled by its constant truth value) and the `s` self-only flag
set by `this:`-subscriptions. -/
structure SubItem where
  o : Nat := 0
  cb : Callback
  f : Option Bool := none
  s : Bool := false
deriving DecidableEq, Repr

/-- A per-topic subscription bucket: the `b`(efore) and `a`(fter) arrays.
A missing array in JS behaves like an empty one. -/
structure Bucket where
  b : List SubItem := []
  a : List SubItem := []
deriving DecidableEq, Repr

/-- A custom-event definition stored in `_ce` (built by `defineEvent`). -/
structure CEDef where
  preventable : Bool := true
  defaultFn : Option (List Action) := none
  preventedFn : Option (List Action) := none
  unHaltable : Bool := false
  unPreventable : Bool := false
  unSilencable : Bool := false
deriving DecidableEq, Repr

/-- A notifier / detach-notifier record (`{cb, o, r}`). -/
structure Notifier where
  cbId : Nat
  o : Nat
  r : Bool
deriving DecidableEq, Repr

/-- Observable happenings, recorded in order: subscriber-callback invocations
(`cbCall id eventName`), default/prevented-function invocations, logged
warnings/errors, results of re-entrant emits, and notifier invocations. -/
inductive TraceEv where
  | cbCall (id : Nat) (etype : String)
  | defaultFnCall (topic : String)
  | preventedFnCall (topic : String)
  | warnLoop (topic : String)
  | warnSilent (emitter etype : String)
  | errPattern (topic : String)
  | errSubscribe (topic : String)
  | errRemove (topic : String)
  | emitReturned (topic : String) (gotEventObj : Bool)
  | notifyCall (id : Nat) (topic : String)
  | detachNotifyCall (id : Nat) (topic : String)
deriving DecidableEq, Repr

/-- The global mutable state of the Event module: `_subs`, `_ce`,
`_notifiers`, `_detachNotifiers`, `_runningEvents`, the `_detached` flags of
once-wrappers, and the observation trace. -/
structure EvState where
  subs : List (String × Bucket) := []
  ce : List (String × CEDef) := []
  notifiers : List (String × Notifier) := []
  detachNotifiers : List (String × Notifier) := []
  running : List String := []
  flags : List (Nat × Bool) := []
  trace : List TraceEv := []
deriving DecidableEq, Repr

/-- An emitter instance: its identity and (optional) `_emitterName`. -/
structure Obj where
  id : Nat
  emitterName : Option String := none
deriving DecidableEq, Repr

/-- The Event module itself, used as the source when `emit` is called without
an emitter, and as the implicit owner of context-less subscriptions. -/
def instObj : Obj := { id := 0 }

/-- The part of the caller payload the dispatcher itself inspects
(`payload.silent`).  Payload property merging is modelled separately by
`mergePayload`. -/
structure DPayload where
  silent : Bool := false
deriving DecidableEq, Repr

/-- The event object built per emission (the `keepPayload:false` path of
`_emit`). `unPreventable`/`unHaltable` model `e._unPreventable`/`e._unHaltable`
(absent = `false`); `sourceTarget`/`returnValue`, which no claim observes, are
omitted. -/
structure EventObj where
  target : Nat
  type : String
  emitter : String
  status : Status := {}
  silent : Bool := false
  unPreventable : Bool := false
  unHaltable : Bool := false
deriving DecidableEq, Repr

/-! ## The event-object mutators (source lines 1243–1245). -/

/-- `e.halt(reason)`:
`this.status.ok || this._unHaltable || (this.status.halted = (reason || true))`. -/
def applyHalt (e : EventObj) (reason : Option String) : EventObj :=
  if e.status.ok.getD false then e
  else if e.unHaltable then e
  else { e with status := { e.status with halted := some (mkHaltVal reason) } }

/-- `e.preventDefault(reason)`. -/
def applyPreventDefault (e : EventObj) (reason : Option String) : EventObj :=
  if e.status.ok.getD false then e
  else if e.unPreventable then e
  else { e with status := { e.status with defaultPrevented := some (mkHaltVal reason) } }

/-- `e.preventDefaultContinue(reason)`. -/
def applyPreventDefaultContinue (e : EventObj) (reason : Option String) : EventObj :=
  if e.status.ok.getD false then e
  else if e.unPreventable then e
  else { e with status := { e.status with defaultPreventedContinue := some (mkHaltVal reason) } }

/-! ## Dispatcher (`Event._emit` and `Event._invokeSubs`).

The helpers are parameterised by `er`, the re-entrant `emit` entry point used
when a callback performs `Action.emitA`; `emitD (fuel+1)` ties the knot by
passing `emitD fuel`. -/

/-- The type of the re-entrant emit entry point. -/
abbrev EmitRec := EvState → Obj → String → DPayload → Option EventObj × EvState

/-- `handler._detached` lookup (absent = `false`). -/
def flagGet (st : EvState) (i : Nat) : Bool := (st.flags.lookup i).getD false

/-- `handler._detached = true`. -/
def flagSet (st : EvState) (i : Nat) : EvState := { st with flags := setk st.flags i true }

/-- Execute one callback action on the event object and the state. -/
def runAction (er : EmitRec) (a : Action) (e : EventObj) (st : EvState) : EventObj × EvState :=
  match a with
  | .haltA r => (applyHalt e r, st)
  | .preventDefaultA r => (applyPreventDefault e r, st)
  | .preventDefaultContinueA r => (applyPreventDefaultContinue e r, st)
  | .silentA => ({ e with silent := true }, st)
  | .emitA t =>
      let res := er st instObj t {}
      (e, { res.2 with trace := res.2.trace ++ [.emitReturned t res.1.isSome] })

/-- Execute a callback body in order. -/
def runActions (er : EmitRec) : List Action → EventObj → EvState → EventObj × EvState
  | [], e, st => (e, st)
  | a :: rest, e, st =>
      let p := runAction er a e st
      runActions er rest p.1 p.2

/-- Invoke one subscriber callback (`subscriber.cb.call(subscriber.o, e)`).
For a once-wrapper: `handler._detached || callback.call(this, e);
handler._detached = true;` — the flag is read before and set only after the
wrapped callback runs. -/
def invokeCallback (er : EmitRec) (sub : SubItem) (e : EventObj) (st : EvState) :
    EventObj × EvState :=
  match sub.cb with
  | .plain id body =>
      runActions er body e { st with trace := st.trace ++ [.cbCall id e.type] }
  | .onceWrap flagId id body =>
      if flagGet st flagId then (e, flagSet st flagId)
      else
        let p := runActions er body e { st with trace := st.trace ++ [.cbCall id e.type] }
        (p.1, flagSet p.2 flagId)

/-- The `subs.some(...)` loop of `_invokeSubs`: skip self-only records whose
owner is not the target, skip filtered-out records, invoke the callback, reset
an illegal `e.silent` on unsilencable events with a warning, and stop early on
`e.silent || (before && e.status.halted)`. -/
def invokeSubsList (er : EmitRec) (checkFilter before : Bool) :
    List SubItem → EventObj → EvState → EventObj × EvState
  | [], e, st => (e, st)
  | sub :: rest, e, st =>
      let passesThis := !sub.s || sub.o == e.target
      let passesFilter := !checkFilter || sub.f.isNone || sub.f == some true
      let p := if passesThis && passesFilter then invokeCallback er sub e st else (e, st)
      let q :=
        if p.1.status.unSilencable && p.1.silent then
          ({ p.1 with silent := false },
           { p.2 with trace := p.2.trace ++ [.warnSilent p.1.emitter p.1.type] })
        else p
      if q.1.silent || (before && q.1.status.halted.isSome) then q
      else invokeSubsList er checkFilter before rest q.1 q.2

/-- `_invokeSubs` for one bucket: a missing bucket, a halted or a silent event
invokes nothing.  -/
def invokeSubsBucket (er : EmitRec) (checkFilter before : Bool) (bucket? : Option Bucket)
    (e : EventObj) (st : EvState) : EventObj × EvState :=
  match bucket? with
  | none => (e, st)
  | some bucket =>
      if e.status.halted.isSome || e.silent then (e, st)
      else invokeSubsList er checkFilter before (if before then bucket.b else bucket.a) e st

/-- `[subs, named_wildcard_subs, wildcard_named_subs, wildcard_wildcard_subs]
.forEach(invokeSubs)`. -/
def invokeBuckets (er : EmitRec) (checkFilter before : Bool) :
    List (Option Bucket) → EventObj → EvState → EventObj × EvState
  | [], e, st => (e, st)
  | bucket? :: rest, e, st =>
      let p := invokeSubsBucket er checkFilter before bucket? e st
      invokeBuckets er checkFilter before rest p.1 p.2

/-- The default/prevented phase of `_emit` (source lines 873–878): only when a
definition exists and the event is not halted; `preventedFn` when
`defaultPrevented` or `defaultPreventedContinue` is set, else `defaultFn`; the
`status.defaultFn`/`status.preventedFn` flag is set only when the
corresponding function exists. -/
def runDefaultPhase (er : EmitRec) (topic : String) (d? : Option CEDef)
    (e : EventObj) (st : EvState) : EventObj × EvState :=
  match d? with
  | none => (e, st)
  | some d =>
      if e.status.halted.isSome then (e, st)
      else if e.status.defaultPrevented.isSome || e.status.defaultPreventedContinue.isSome then
        match d.preventedFn with
        | some body =>
            runActions er body { e with status := { e.status with preventedFn := true } }
              { st with trace := st.trace ++ [.preventedFnCall topic] }
        | none => (e, st)
      else
        match d.defaultFn with
        | some body =>
            runActions er body { e with status := { e.status with defaultFn := true } }
              { st with trace := st.trace ++ [.defaultFnCall topic] }
        | none => (e, st)

/-- `e.status.ok = !e.status.halted && !e.status.defaultPrevented`
(source line 868). -/
def setOk (e : EventObj) : EventObj :=
  { e with status := { e.status with
    ok := some (e.status.halted.isNone && e.status.defaultPrevented.isNone) } }

/-- The three dispatch phases of `_emit` over an already-built event object:
the before pass over the four buckets, the `status.ok` resolution, the
default/prevented phase, and the after pass (only when `status.ok`). -/
def emitPhases (er : EmitRec) (customEvent : String) (d? : Option CEDef)
    (bs : List (Option Bucket)) (e0 : EventObj) (st : EvState) :
    Option EventObj × EvState :=
  let p1 := invokeBuckets er true true bs e0 st
  let p2 := runDefaultPhase er customEvent d? (setOk p1.1) p1.2
  let p3 :=
    if p2.1.status.ok = some true then invokeBuckets er true false bs p2.1 p2.2
    else p2
  (some p3.1, p3.2)

/-- The body of `Event._emit` past the validation and the re-entrancy guard
(source lines 815–891): mark the topic running, resolve the definition and the
four buckets (exact topic, `emitterName:*`, `*:eventName`, `*:*`, invoked in
that order), build the event object, run the three phases, and clear the
running mark. -/
def emitCore (er : EmitRec) (st : EvState) (emitter : Obj)
    (customEvent emitterName eventName : String) (payload : DPayload) :
    Option EventObj × EvState :=
  let st1 := { st with running := customEvent :: st.running }
  let d? := st1.ce.lookup customEvent
  let subs := st1.subs.lookup customEvent
  let wildcard_named := st1.subs.lookup ("*:" ++ eventName)
  let named_wildcard := st1.subs.lookup (emitterName ++ ":*")
  let wildcard_wildcard := st1.subs.lookup "*:*"
  let e0 : EventObj :=
    { target := emitter.id, type := eventName, emitter := emitterName,
      status := { unSilencable := (d?.map (·.unSilencable)).getD false },
      unPreventable := (d?.map (·.unPreventable)).getD false,
      unHaltable := (d?.map (·.unHaltable)).getD false,
      silent := payload.silent }
  let p0 :=
    if e0.status.unSilencable && e0.silent then
      ({ e0 with silent := false },
       { st1 with trace := st1.trace ++ [.warnSilent emitterName eventName] })
    else (e0, st1)
  let pr := emitPhases er customEvent d?
    [subs, named_wildcard, wildcard_named, wildcard_wildcard] p0.1 p0.2
  (pr.1, { pr.2 with running := pr.2.running.erase customEvent })

/-- `Event._emit(emitter, customEvent, payload)` on the ordinary path (no
subscriber overrides, no preProcessor, no keepPayload, no payloadGetters):
normalise a bare event name with the emitter's `_emitterName`, validate
against `REGEXP_CUSTOMEVENT`, reject re-entrant emission of a topic already in
`_runningEvents`, then dispatch through `emitCore`.  `fuel` bounds the depth
of re-entrant `emit` calls performed by callbacks. -/
def emitD : Nat → EvState → Obj → String → DPayload → Option EventObj × EvState
  | 0, st, _, _, _ => (none, st)
  | fuel + 1, st, emitter, customEvent0, payload =>
      let customEvent :=
        if hasColon customEvent0 then customEvent0
        else (emitter.emitterName.getD "undefined") ++ ":" ++ customEvent0
      match parseCE customEvent with
      | none => (none, { st with trace := st.trace ++ [.errPattern customEvent] })
      | some (emitterName, eventName) =>
          if st.running.contains customEvent then
            (none, { st with trace := st.trace ++ [.warnLoop customEvent] })
          else
            emitCore (emitD fuel) st emitter customEvent emitterName eventName payload

/-! ## Subscription registry (`_addSubscriber`, `_removeSubscriber`,
`_removeSubscribers`, `notify`). -/

/-- The detach capability returned by `_addSubscriber`: the closure captures
the listener, the phase, the (normalised) topic and the callback. -/
structure SubHandle where
  listenerId : Option Nat
  before : Bool
  customEvent : String
  cb : Callback
deriving DecidableEq, Repr

/-- Fire the notifier stored under `key` (if any), recording the invocation
with the concrete topic `ce`; a `once` notifier is then deleted — but, as in
the source (lines 697, 705, 713, 720), the key deleted is always `customEvent`
itself (`deleteKey`), not necessarily the key the notifier was found under. -/
def fireNotifier (st : EvState) (key deleteKey ce : String) : EvState :=
  match st.notifiers.lookup key with
  | none => st
  | some n =>
      let st' := { st with trace := st.trace ++ [.notifyCall n.cbId ce] }
      if n.r then { st' with notifiers := erasek st'.notifiers deleteKey } else st'

/-- The notifier stage of `_addSubscriber` (lines 691–723), run only for a
concrete subscription: the literal topic, its wildcard-event variant, its
wildcard-emitter variant, and the full wildcard, each guarded by being
distinct from the literal topic. -/
def fireNotifiers (st : EvState) (ce : String) : EvState :=
  let wEvent := replaceEventWithStar ce
  let wEmitter := replaceEmitterWithStar ce
  let st1 := fireNotifier st ce ce ce
  let st2 := if wEvent ≠ ce then fireNotifier st1 wEvent ce ce else st1
  let st3 := if wEmitter ≠ ce then fireNotifier st2 wEmitter ce ce else st2
  if "*:*" ≠ ce then fireNotifier st3 "*:*" ce ce else st3

/-- `Event._addSubscriber(listener, before, customEvent, callback, filter,
prepend)`: validate the topic, build the subscriber record, substitute `UI`
for a missing emitter fragment, resolve the reserved `this:` emitter from the
listener's `_emitterName` (failing without registering when the listener has
none), ensure the bucket, fire matching notifiers for concrete topics, then
push (or unshift) the record and return a handle. -/
def addSubscriber (st : EvState) (listener : Option Obj) (before : Bool)
    (customEvent0 : String) (callback : Callback) (filter : Option Bool)
    (prepend : Bool) : EvState × Option SubHandle :=
  match parseWildcardCE customEvent0 with
  | none => ({ st with trace := st.trace ++ [.errSubscribe customEvent0] }, none)
  | some (emOpt, ev) =>
      let listenerId : Option Nat := listener.map (·.id)
      let item0 : SubItem := { o := listenerId.getD 0, cb := callback, f := filter }
      let ce1 := if emOpt.isNone then "UI:" ++ customEvent0 else customEvent0
      let resolved : Option (String × SubItem) :=
        if emOpt = some "this" then
          match listener.bind (·.emitterName) with
          | some en => some (en ++ ":" ++ ev, { item0 with s := true })
          | none => none
        else some (ce1, item0)
      match resolved with
      | none => ({ st with trace := st.trace ++ [.errSubscribe customEvent0] }, none)
      | some (ce, item) =>
          let bucket0 := (st.subs.lookup ce).getD {}
          let st1 := { st with subs := setk st.subs ce bucket0 }
          let st2 :=
            if emOpt ≠ some "*" && ev ≠ "*" then fireNotifiers st1 ce else st1
          let bucket1 := (st2.subs.lookup ce).getD {}
          let bucket2 :=
            if before then
              { bucket1 with b := if prepend then item :: bucket1.b else bucket1.b ++ [item] }
            else
              { bucket1 with a := if prepend then item :: bucket1.a else bucket1.a ++ [item] }
          ({ st2 with subs := setk st2.subs ce bucket2 },
           some { listenerId := listenerId, before := before, customEvent := ce, cb := callback })

/-- The removal predicate of the `_removeSubscriber` loop:
`(subscriber.o === (listener || instance)) && (!callback || (subscriber.cb === callback))`. -/
def matchesRemoval (ownerId : Nat) (callback? : Option Callback) (it : SubItem) : Bool :=
  it.o == ownerId && (callback?.isNone || callback? == some it.cb)

/-- Fire the detach-notifier stored under `key` (if any); a `once` record is
then deleted under `deleteKey` (always the literal topic in the source,
lines 989 and 997). -/
def fireDetachNotifier (st : EvState) (key deleteKey ce : String) : EvState :=
  match st.detachNotifiers.lookup key with
  | none => st
  | some n =>
      let st' := { st with trace := st.trace ++ [.detachNotifyCall n.cbId ce] }
      if n.r then { st' with detachNotifiers := erasek st'.detachNotifiers deleteKey } else st'

/-- The registry update of `_removeSubscriber` (source lines 961–980): remove
every record of the phase array matching the owner (and the callback, when
given), and delete the topic's entry when both arrays became empty. -/
def removeSubscriberSubs (subs : List (String × Bucket)) (ownerId : Nat) (before : Bool)
    (customEvent : String) (callback? : Option Callback) : List (String × Bucket) :=
  match subs.lookup customEvent with
  | none => subs
  | some bucket =>
      let bucket' :=
        if before then
          { bucket with b := bucket.b.filter (fun it => !(matchesRemoval ownerId callback? it)) }
        else
          { bucket with a := bucket.a.filter (fun it => !(matchesRemoval ownerId callback? it)) }
      if bucket'.b.isEmpty && bucket'.a.isEmpty then erasek subs customEvent
      else setk subs customEvent bucket'

/-- `Event._removeSubscriber(listener, before, customEvent, callback)`:
update the registry through `removeSubscriberSubs`, then, for a concrete
topic, fire the literal and wildcard-event detach-notifiers (only those two —
asymmetric with subscribe). -/
def removeSubscriber (st : EvState) (listener : Option Nat) (before : Bool)
    (customEvent : String) (callback? : Option Callback) : EvState :=
  let st1 := { st with
    subs := removeSubscriberSubs st.subs (listener.getD 0) before customEvent callback? }
  match parseCE customEvent with
  | none => st1
  | some (em, _) =>
      let st2 := fireDetachNotifier st1 customEvent customEvent customEvent
      let wEvent := em ++ ":*"
      if wEvent ≠ customEvent then fireDetachNotifier st2 wEvent customEvent customEvent else st2

/-- `handler.detach()` for the handle returned by `_addSubscriber`. -/
def detachHandle (st : EvState) (h : SubHandle) : EvState :=
  removeSubscriber st h.listenerId h.before h.customEvent (some h.cb)

/-- `Event._removeSubscribers(listener, customEvent)`: validate; when the
pattern is concrete (after substituting `UI` for a missing emitter fragment)
remove both phases — passing the *original* topic string through, exactly as
the source does (lines 1038–1039); when the pattern has a wildcard, walk every
registered topic and remove both phases of each position-wise match. -/
def removeSubscribers (st : EvState) (listener : Option Nat) (customEvent : String) : EvState :=
  match parseWildcardCE customEvent with
  | none => { st with trace := st.trace ++ [.errRemove customEvent] }
  | some (emOpt, ev) =>
      let emitterName := emOpt.getD "UI"
      if emitterName ≠ "*" && ev ≠ "*" then
        let st1 := removeSubscriber st listener true customEvent none
        removeSubscriber st1 listener false customEvent none
      else
        let keys := st.subs.map (·.1)
        keys.foldl
          (fun acc key =>
            match parseWildcardCE key with
            | some (kEmOpt, kEv) =>
                let emitterMatch := emitterName = "*" || kEmOpt = some emitterName
                let eventMatch := ev = "*" || ev = kEv
                if emitterMatch && eventMatch then
                  removeSubscriber (removeSubscriber acc listener true key none)
                    listener false key none
                else acc
            | none => acc)
          st

/-- `Event.notify(customEvent, callback, context, once)`: store/overwrite one
notifier record per topic string. -/
def notify (st : EvState) (customEvents : List String) (cbId context : Nat)
    (once : Bool) : EvState :=
  customEvents.foldl
    (fun acc ce => { acc with notifiers := setk acc.notifiers ce ⟨cbId, context, once⟩ }) st

/-! ## Payload merging (`_emit`, source lines 841–855).

Property descriptors are modelled by `Descriptor`; a getter is an index into
an environment `env : Nat → Nat` of external mutable state, so that "the
getter still works" is expressible as the descriptor remaining an accessor. -/

/-- A JS property descriptor as far as the merge loop inspects it: a data
property with its `writable` attribute, or an accessor property (whose
`writable` attribute is `undefined`). -/
inductive Descriptor where
  | data (value : Nat) (writable : Bool)
  | accessor (get : Nat)
deriving DecidableEq, Repr

/-- What one payload property becomes on the event object:
`!propDescriptor.writable` (true for non-writable data properties *and* for
accessors, whose `writable` is `undefined`) selects plain assignment
`e[key] = payload[key]` — which reads the property once (invoking a getter)
and creates an ordinary writable data property — while only writable data
properties are re-installed via `Object.defineProperty` with their original
descriptor. -/
def mergeDesc (env : Nat → Nat) : Descriptor → Descriptor
  | .data v true => .data v true
  | .data v false => .data v true
  | .accessor g => .data (env g) true

/-- One iteration of `for (key in payload)`: skip the key when `key in e`
(own properties or the prototype chain `protoKeys`), else install the merged
descriptor. -/
def mergeStep (env : Nat → Nat) (protoKeys : List String)
    (e : List (String × Descriptor)) (kd : String × Descriptor) :
    List (String × Descriptor) :=
  if (e.lookup kd.1).isSome || protoKeys.contains kd.1 then e
  else e ++ [(kd.1, mergeDesc env kd.2)]

/-- The payload-merge loop of `_emit` over the own enumerable properties of
`payload`, in order. -/
def mergePayload (env : Nat → Nat) (protoKeys : List String)
    (e : List (String × Descriptor)) (payload : List (String × Descriptor)) :
    List (String × Descriptor) :=
  payload.foldl (mergeStep env protoKeys) e

/-- The properties every event object owns or inherits before the merge:
`target`, `type`, `emitter`, `status` (set in `_emit`) and the three mutators
on `_defaultEventObj`. -/
def baseEventKeys : List String :=
  ["target", "type", "emitter", "status", "halt", "preventDefault", "preventDefaultContinue"]

/-! ## Observations over the trace, and reusable scenario pieces. -/

/-- The subscriber-callback invocations recorded in a trace, in order. -/
def cbIds (tr : List TraceEv) : List Nat :=
  tr.filterMap fun t => match t with | .cbCall id _ => some id | _ => none

/-- How many times the subscriber callback `id` was invoked. -/
def countCb (tr : List TraceEv) (id : Nat) : Nat := (cbIds tr).count id

/-- How many times the notifier callback `id` was invoked. -/
def countNotify (tr : List TraceEv) (id : Nat) : Nat :=
  (tr.filterMap fun t => match t with | .notifyCall i _ => some i | _ => none).count id

/-- A subscriber whose callback does nothing (`function(e) {}`), owned by
object `1`, without filter. -/
def inert (id : Nat) : SubItem := { o := 1, cb := .plain id [] }

/-- A sequence of back-to-back top-level `emit` calls, each given its own
fuel, emitter, topic and payload. -/
def runEmissions : List (Nat × Obj × String × DPayload) → EvState → EvState
  | [], st => st
  | (fuel, em, t, pl) :: rest, st => runEmissions rest (emitD fuel st em t pl).2

/-- A callback body that never re-enters the dispatcher. -/
def emitFree (body : List Action) : Bool :=
  body.all fun a => match a with | .emitA _ => false | _ => true

/-- A callback body consisting only of `preventDefault`-style mutators: it
neither re-enters the dispatcher nor halts or silences the event. -/
def tameBody (body : List Action) : Bool :=
  body.all fun a => match a with
    | .preventDefaultA _ => true
    | .preventDefaultContinueA _ => true
    | _ => false

/-- No subscriber record invokes the user callback `id0` except through the
once-wrapper with flag `flag0` and an emit-free body (the situation created by
`onceBefore`/`onceAfter` for a callback that does not itself emit). -/
def goodItem (id0 flag0 : Nat) (it : SubItem) : Bool :=
  match it.cb with
  | .plain i _ => !(i == id0)
  | .onceWrap fl i body => !(i == id0) || ((fl == flag0) && emitFree body)

/-- `goodItem` for every record of every bucket of the registry. -/
def onceOnlyAt (subs : List (String × Bucket)) (id0 flag0 : Nat) : Bool :=
  subs.all fun kb => (kb.2.b ++ kb.2.a).all (goodItem id0 flag0)

/-- Potential of the once-guard: the number of recorded invocations of the
user callback `id0` plus one while the `_detached` flag `flag0` is still
unset.  It never increases during dispatch, which bounds the number of
invocations. -/
def onceBudget (st : EvState) (id0 flag0 : Nat) : Nat :=
  countCb st.trace id0 + (if flagGet st flag0 then 0 else 1)

/-- No registered topic has both its `before` and `after` arrays empty. -/
def noEmptyBuckets (subs : List (String × Bucket)) : Bool :=
  subs.all fun kb => !(kb.2.b.isEmpty && kb.2.a.isEmpty)

/-! ## Concrete scenarios used by counterexamples. -/

/-- Registry with one inert subscriber per bucket and phase for topic `a:b`:
before ids 1 (`a:b`), 2 (`*:b`), 3 (`a:*`), 4 (`*:*`); after ids 5–8
likewise. -/
def c1State : EvState :=
  { subs :=
      [("a:b", { b := [inert 1], a := [inert 5] }),
       ("*:b", { b := [inert 2], a := [inert 6] }),
       ("a:*", { b := [inert 3], a := [inert 7] }),
       ("*:*", { b := [inert 4], a := [inert 8] })] }

/-- State after `notify('red:*', cb₇, owner₁, once=true)`. -/
def c4State1 : EvState := notify {} ["red:*"] 7 1 true

/-- … then `before('red:save', cb₁)`. -/
def c4State2 : EvState := (addSubscriber c4State1 none true "red:save" (.plain 1 []) none false).1

/-- … then `before('red:create', cb₂)`. -/
def c4State3 : EvState := (addSubscriber c4State2 none true "red:create" (.plain 2 []) none false).1

/-- State after `before('a:b', cb₉, owner₁)` twice with the same callback. -/
def c7State : EvState :=
  (addSubscriber
    (addSubscriber {} (some ⟨1, none⟩) true "a:b" (.plain 9 []) none false).1
    (some ⟨1, none⟩) true "a:b" (.plain 9 []) none false).1

/-- The handle returned by the second of the two subscriptions of `c7State`. -/
def c7Handle : SubHandle := { listenerId := some 1, before := true, customEvent := "a:b", cb := .plain 9 [] }

/-- A single once-before subscription to `*:*` (flag 0, user callback 9)
whose callback emits the different concrete topic `c:d`. -/
def c8State : EvState :=
  { subs := [("*:*", { b := [{ o := 1, cb := .onceWrap 0 9 [.emitA "c:d"] }], a := [] })] }

/-- A once-before subscription to `a:*` (flag 0, user callback 9) whose
callback emits only the non-matching topic `x:y`, and a plain subscriber to
`x:y` that emits the matching topic `a:c`. -/
def c8TransState : EvState :=
  { subs := [("a:*", { b := [{ o := 1, cb := .onceWrap 0 9 [.emitA "x:y"] }], a := [] }),
             ("x:y", { b := [{ o := 1, cb := .plain 1 [.emitA "a:c"] }], a := [] })] }

/-- State after `before('save', cb₉, owner₁)` — a bare event name. -/
def c9State : EvState := (addSubscriber {} (some ⟨1, none⟩) true "save" (.plain 9 []) none false).1


/-! ## Derived notions used by the verification lemmas. -/

/-- `goodItem` for every record of a (possibly missing) bucket. -/
def goodBucket (id0 flag0 : Nat) : Option Bucket → Bool
  | none => true
  | some bkt => (bkt.b ++ bkt.a).all (goodItem id0 flag0)

/-- A dispatch step from `st` to `st'` preserves the subscription registry and
the running set, and never increases the once-guard potential of any
well-guarded callback. -/
def StPres (st st' : EvState) : Prop :=
  st'.subs = st.subs ∧ st'.running = st.running ∧
  ∀ id0 flag0, onceOnlyAt st.subs id0 flag0 = true →
    onceBudget st' id0 flag0 ≤ onceBudget st id0 flag0

/-- Every invocation of the re-entrant emit entry point is a `StPres` step. -/
def DispatchPres (er : EmitRec) : Prop :=
  ∀ st em t pl, StPres st (er st em t pl).2

/-- The removal predicate a handle's `detach()` closure uses. -/
def handleMatches (h : SubHandle) (it : SubItem) : Bool :=
  matchesRemoval (h.listenerId.getD 0) (some h.cb) it

/-- One phase array of a bucket. -/
def phaseSeq (bkt : Bucket) (before : Bool) : List SubItem :=
  if before then bkt.b else bkt.a

/-- The phase array registered for a topic (empty when the topic is absent). -/
def topicPhase (subs : List (String × Bucket)) (ce : String) (before : Bool) : List SubItem :=
  match subs.lookup ce with
  | some bkt => phaseSeq bkt before
  | none => []

/-! ## Concrete scenarios used by witnesses. -/

/-- A before-subscriber on `a:b` that halts with reason `stop`, an inert
after-subscriber, and a definition with a `defaultFn`. -/
def c2WitState : EvState :=
  { subs := [("a:b",
      { b := [{ o := 1, cb := .plain 7 [.haltA (some "stop")] }], a := [inert 9] })],
    ce := [("a:b", { defaultFn := some [] })] }

/-- A before-subscriber on `a:b` calling `preventDefault()`, an inert
after-subscriber, and a definition with both functions. -/
def c3WitState : EvState :=
  { subs := [("a:b",
      { b := [{ o := 1, cb := .plain 7 [.preventDefaultA none] }], a := [inert 9] })],
    ce := [("a:b", { defaultFn := some [], preventedFn := some [] })] }

/-- A before-subscriber on `a:b` calling `preventDefaultContinue()`, an inert
after-subscriber, and a definition with both functions. -/
def c10WitState : EvState :=
  { subs := [("a:b",
      { b := [{ o := 1, cb := .plain 7 [.preventDefaultContinueA none] }],
        a := [9].map inert })],
    ce := [("a:b", { defaultFn := some [], preventedFn := some [] })] }

/-- A state in which topic `a:b` is already mid-dispatch. -/
def c6WitState : EvState := { running := ["a:b"] }

/-- A single registered subscription of owner 1 on `a:b`. -/
def c7WitState : EvState :=
  (addSubscriber {} (some ⟨1, none⟩) true "a:b" (.plain 9 []) none false).1

/-- A once-before subscription to `*:*` (flag 0, user callback 9) whose
callback performs no actions. -/
def c8WitState : EvState :=
  { subs := [("*:*", { b := [{ o := 1, cb := .onceWrap 0 9 [] }], a := [] })] }

/-- Two back-to-back synchronous emissions of matching concrete topics. -/
def c8WitEmissions : List (Nat × Obj × String × DPayload) :=
  [(2, instObj, "a:b", {}), (2, instObj, "x:y", {})]


/-! ## Verification lemmas. -/

theorem stPres_refl {st : EvState} : StPres st st :=
  ⟨Eq.refl _, Eq.refl _, fun _ _ _ => le_refl _⟩

theorem stPres_trans {s1 s2 s3 : EvState} (h1 : StPres s1 s2) (h2 : StPres s2 s3) :
    StPres s1 s3 := by
  obtain ⟨a1, b1, c1⟩ := h1
  obtain ⟨a2, b2, c2⟩ := h2
  refine ⟨a2.trans a1, b2.trans b1, fun id0 flag0 h => ?_⟩
  have := c2 id0 flag0 (by rw [a1]; exact h)
  exact this.trans (c1 id0 flag0 h)

theorem countCb_append (tr tr' : List TraceEv) (id : Nat) :
    countCb (tr ++ tr') id = countCb tr id + countCb tr' id := by
  simp [countCb, cbIds, List.filterMap_append, List.count_append]

theorem lookup_setk {κ α : Type} [DecidableEq κ] (l : List (κ × α)) (k j : κ) (v : α) :
    List.lookup j (setk l k v) = if j = k then some v else List.lookup j l := by
  induction l with
  | nil =>
      by_cases h : j = k
      · simp [setk, List.lookup, h]
      · simp [setk, List.lookup, beq_eq_false_iff_ne.mpr h, h]
  | cons p t ih =>
      obtain ⟨k', v'⟩ := p
      by_cases h1 : k' = k
      · subst h1
        by_cases h2 : j = k'
        · simp [setk, List.lookup, h2]
        · simp [setk, List.lookup, beq_eq_false_iff_ne.mpr h2, h2]
      · by_cases h2 : j = k
        · subst h2
          have hne : j ≠ k' := fun hh => h1 hh.symm
          simp [setk, List.lookup, h1, beq_eq_false_iff_ne.mpr hne, ih]
        · by_cases h3 : j = k'
          · simp [setk, List.lookup, h1, h3, ih, h2]
          · simp [setk, List.lookup, h1, beq_eq_false_iff_ne.mpr h3, ih, h2]

theorem flagGet_flagSet (st : EvState) (k j : Nat) :
    flagGet (flagSet st k) j = if j = k then true else flagGet st j := by
  by_cases h : j = k <;> simp [flagGet, flagSet, lookup_setk, h]

theorem budget_flagSet_le (st : EvState) (k id0 flag0 : Nat) :
    onceBudget (flagSet st k) id0 flag0 ≤ onceBudget st id0 flag0 := by
  have h1 : countCb (flagSet st k).trace id0 = countCb st.trace id0 := rfl
  have h2 : flagGet (flagSet st k) flag0 = if flag0 = k then true else flagGet st flag0 :=
    flagGet_flagSet st k flag0
  simp only [onceBudget, h1, h2]
  by_cases h : flag0 = k
  · simp only [h, if_true]
    cases hf : flagGet st k <;> simp
  · simp [h]

theorem countCb_single_cb (i : Nat) (ty : String) (id : Nat) :
    countCb [.cbCall i ty] id = if i = id then 1 else 0 := by
  by_cases h : i = id
  · simp [countCb, cbIds, h]
  · simp [countCb, cbIds, h, List.count_singleton]

theorem stPres_addTrace0 (st : EvState) (tr' : List TraceEv)
    (h : ∀ id, countCb tr' id = 0) :
    StPres st { st with trace := st.trace ++ tr' } := by
  refine ⟨rfl, rfl, fun id0 flag0 _ => ?_⟩
  simp [onceBudget, countCb_append, h, flagGet]

theorem runActions_emitFree_state (er : EmitRec) (body : List Action) (e : EventObj)
    (st : EvState) (h : emitFree body = true) : (runActions er body e st).2 = st := by
  induction body generalizing e st with
  | nil => rfl
  | cons a rest ih =>
      simp only [emitFree, List.all_cons, Bool.and_eq_true] at h
      cases a with
      | emitA t => simp at h
      | haltA r => simpa [runActions, runAction] using ih _ _ h.2
      | preventDefaultA r => simpa [runActions, runAction] using ih _ _ h.2
      | preventDefaultContinueA r => simpa [runActions, runAction] using ih _ _ h.2
      | silentA => simpa [runActions, runAction] using ih _ _ h.2

theorem runAction_pres (er : EmitRec) (H : DispatchPres er) (a : Action) (e : EventObj)
    (st : EvState) : StPres st (runAction er a e st).2 := by
  cases a with
  | emitA t =>
      simp only [runAction]
      exact stPres_trans (H st instObj t {})
        (stPres_addTrace0 _ _ (fun id => by simp [countCb, cbIds]))
  | haltA r => exact stPres_refl
  | preventDefaultA r => exact stPres_refl
  | preventDefaultContinueA r => exact stPres_refl
  | silentA => exact stPres_refl

theorem runActions_pres (er : EmitRec) (H : DispatchPres er) (body : List Action)
    (e : EventObj) (st : EvState) : StPres st (runActions er body e st).2 := by
  induction body generalizing e st with
  | nil => exact stPres_refl
  | cons a rest ih =>
      simp only [runActions]
      exact stPres_trans (runAction_pres er H a e st) (ih _ _)

theorem invokeCallback_pres (er : EmitRec) (H : DispatchPres er) (sub : SubItem)
    (e : EventObj) (st : EvState)
    (hgood : ∀ id0 flag0, onceOnlyAt st.subs id0 flag0 = true →
      goodItem id0 flag0 sub = true) :
    StPres st (invokeCallback er sub e st).2 := by
  cases hcb : sub.cb with
  | plain id body =>
      simp only [invokeCallback, hcb]
      have hmid : StPres { st with trace := st.trace ++ [.cbCall id e.type] }
          (runActions er body e { st with trace := st.trace ++ [.cbCall id e.type] }).2 :=
        runActions_pres er H body e _
      obtain ⟨hs1, hr1, hb1⟩ := hmid
      refine ⟨hs1, hr1, fun id0 flag0 honce => ?_⟩
      have hne : id ≠ id0 := by
        have := hgood id0 flag0 honce
        simp only [goodItem, hcb, Bool.not_eq_true'] at this
        exact fun hh => by simp [hh] at this
      have heq : onceBudget ({ st with trace := st.trace ++ [.cbCall id e.type] }) id0 flag0 =
          onceBudget st id0 flag0 := by
        simp [onceBudget, countCb_append, countCb_single_cb, hne, flagGet]
      have := hb1 id0 flag0 (by exact honce)
      rw [heq] at this
      exact this
  | onceWrap fl id body =>
      simp only [invokeCallback, hcb]
      cases hfl : flagGet st fl with
      | true =>
          simp only [if_true]
          exact ⟨rfl, rfl, fun id0 flag0 _ => budget_flagSet_le st fl id0 flag0⟩
      | false =>
          simp only [Bool.false_eq_true, if_false]
          have hmid : StPres { st with trace := st.trace ++ [.cbCall id e.type] }
              (runActions er body e { st with trace := st.trace ++ [.cbCall id e.type] }).2 :=
            runActions_pres er H body e _
          obtain ⟨hs1, hr1, hb1⟩ := hmid
          refine ⟨by simp [flagSet, hs1], by simp [flagSet, hr1], fun id0 flag0 honce => ?_⟩
          have hg := hgood id0 flag0 honce
          simp only [goodItem, hcb] at hg
          by_cases hid : id = id0
          · -- the guarded user callback itself fires: flag must be flag0, body emit-free
            subst hid
            have hg2 : (fl == flag0 && emitFree body) = true := by
              simpa [beq_self_eq_true] using hg
            have hflq : fl = flag0 := by
              have := (Bool.and_eq_true _ _).mp hg2
              exact beq_iff_eq.mp this.1
            have hef : emitFree body = true := ((Bool.and_eq_true _ _).mp hg2).2
            subst hflq
            have hst : (runActions er body e
                { st with trace := st.trace ++ [.cbCall id e.type] }).2 =
                { st with trace := st.trace ++ [.cbCall id e.type] } :=
              runActions_emitFree_state er body e _ hef
            rw [hst]
            have l1 : flagGet (flagSet
                { st with trace := st.trace ++ [TraceEv.cbCall id e.type] } fl) fl = true := by
              simp [flagGet_flagSet]
            have l3 : (flagSet { st with trace := st.trace ++ [TraceEv.cbCall id e.type] } fl).trace =
                st.trace ++ [TraceEv.cbCall id e.type] := rfl
            simp only [onceBudget, l1, l3, countCb_append, countCb_single_cb, hfl,
              if_true, Bool.false_eq_true, if_false]
            simp
          · have heq : onceBudget ({ st with trace := st.trace ++ [.cbCall id e.type] }) id0 flag0 =
                onceBudget st id0 flag0 := by
              simp [onceBudget, countCb_append, countCb_single_cb, hid, flagGet]
            have hle := hb1 id0 flag0 honce
            rw [heq] at hle
            exact le_trans (budget_flagSet_le _ fl id0 flag0) hle

theorem invokeSubsList_pres (er : EmitRec) (H : DispatchPres er) (cf bf : Bool)
    (l : List SubItem) (e : EventObj) (st : EvState)
    (hl : ∀ id0 flag0, onceOnlyAt st.subs id0 flag0 = true →
      l.all (goodItem id0 flag0) = true) :
    StPres st (invokeSubsList er cf bf l e st).2 := by
  induction l generalizing e st with
  | nil => exact stPres_refl
  | cons sub rest ih =>
      simp only [invokeSubsList]
      have hhead : ∀ id0 flag0, onceOnlyAt st.subs id0 flag0 = true →
          goodItem id0 flag0 sub = true := fun id0 flag0 h => by
        have := hl id0 flag0 h
        simp only [List.all_cons, Bool.and_eq_true] at this
        exact this.1
      have hp : StPres st (if ((!sub.s || sub.o == e.target) &&
          (!cf || sub.f.isNone || sub.f == some true)) = true
          then invokeCallback er sub e st else (e, st)).2 := by
        split
        · exact invokeCallback_pres er H sub e st hhead
        · exact stPres_refl
      set p := (if ((!sub.s || sub.o == e.target) &&
          (!cf || sub.f.isNone || sub.f == some true)) = true
          then invokeCallback er sub e st else (e, st)) with hpdef
      have hq : StPres p.2 (if (p.1.status.unSilencable && p.1.silent) = true then
          ({ p.1 with silent := false },
           { p.2 with trace := p.2.trace ++ [.warnSilent p.1.emitter p.1.type] })
          else p).2 := by
        split
        · exact stPres_addTrace0 _ _ (fun id => by simp [countCb, cbIds])
        · exact stPres_refl
      set q := (if (p.1.status.unSilencable && p.1.silent) = true then
          ({ p.1 with silent := false },
           { p.2 with trace := p.2.trace ++ [.warnSilent p.1.emitter p.1.type] })
          else p) with hqdef
      have hsq : StPres st q.2 := stPres_trans hp hq
      split
      · exact hsq
      · refine stPres_trans hsq (ih _ _ ?_)
        intro id0 flag0 h
        rw [hsq.1] at h
        have := hl id0 flag0 h
        simp only [List.all_cons, Bool.and_eq_true] at this
        exact this.2

theorem invokeSubsBucket_pres (er : EmitRec) (H : DispatchPres er) (cf bf : Bool)
    (b? : Option Bucket) (e : EventObj) (st : EvState)
    (hb : ∀ id0 flag0, onceOnlyAt st.subs id0 flag0 = true →
      goodBucket id0 flag0 b? = true) :
    StPres st (invokeSubsBucket er cf bf b? e st).2 := by
  cases b? with
  | none => exact stPres_refl
  | some bkt =>
      simp only [invokeSubsBucket]
      split
      · exact stPres_refl
      · refine invokeSubsList_pres er H cf bf _ e st ?_
        intro id0 flag0 h
        have := hb id0 flag0 h
        simp only [goodBucket, List.all_append, Bool.and_eq_true] at this
        cases bf <;> simp [this.1, this.2]

theorem invokeBuckets_pres (er : EmitRec) (H : DispatchPres er) (cf bf : Bool)
    (bs : List (Option Bucket)) (e : EventObj) (st : EvState)
    (hbs : ∀ id0 flag0, onceOnlyAt st.subs id0 flag0 = true →
      bs.all (goodBucket id0 flag0) = true) :
    StPres st (invokeBuckets er cf bf bs e st).2 := by
  induction bs generalizing e st with
  | nil => exact stPres_refl
  | cons b? rest ih =>
      simp only [invokeBuckets]
      have h1 : StPres st (invokeSubsBucket er cf bf b? e st).2 :=
        invokeSubsBucket_pres er H cf bf b? e st (fun id0 flag0 h => by
          have := hbs id0 flag0 h
          simp only [List.all_cons, Bool.and_eq_true] at this
          exact this.1)
      refine stPres_trans h1 (ih _ _ ?_)
      intro id0 flag0 h
      rw [h1.1] at h
      have := hbs id0 flag0 h
      simp only [List.all_cons, Bool.and_eq_true] at this
      exact this.2

theorem runDefaultPhase_pres (er : EmitRec) (H : DispatchPres er) (topic : String)
    (d? : Option CEDef) (e : EventObj) (st : EvState) :
    StPres st (runDefaultPhase er topic d? e st).2 := by
  cases d? with
  | none => exact stPres_refl
  | some d =>
      simp only [runDefaultPhase]
      split
      · exact stPres_refl
      split
      · cases d.preventedFn with
        | none => exact stPres_refl
        | some body =>
            simp only
            refine stPres_trans
              (stPres_addTrace0 st [.preventedFnCall topic] (fun id => by simp [countCb, cbIds]))
              (runActions_pres er H body _ _)
      · cases d.defaultFn with
        | none => exact stPres_refl
        | some body =>
            simp only
            refine stPres_trans
              (stPres_addTrace0 st [.defaultFnCall topic] (fun id => by simp [countCb, cbIds]))
              (runActions_pres er H body _ _)

theorem onceOnly_lookup_goodBucket (subs : List (String × Bucket)) (k : String)
    (id0 flag0 : Nat) (h : onceOnlyAt subs id0 flag0 = true) :
    goodBucket id0 flag0 (subs.lookup k) = true := by
  induction subs with
  | nil => simp [goodBucket, List.lookup]
  | cons p t ih =>
      simp only [onceOnlyAt, List.all_cons, Bool.and_eq_true] at h
      simp only [List.lookup]
      cases hk : k == p.1 with
      | true => simpa [goodBucket] using h.1
      | false => exact ih h.2

theorem stPres_sandwich (st mid st' : EvState) (ce : String)
    (hms : mid.subs = st.subs) (hmr : mid.running = ce :: st.running)
    (hmb : ∀ id0 flag0, onceBudget mid id0 flag0 = onceBudget st id0 flag0)
    (h : StPres mid st') :
    StPres st { st' with running := st'.running.erase ce } := by
  obtain ⟨hs, hr, hb⟩ := h
  refine ⟨by rw [hs, hms], ?_, ?_⟩
  · show st'.running.erase ce = st.running
    rw [hr, hmr, List.erase_cons_head]
  · intro id0 flag0 hON
    have h2 := hb id0 flag0 (by rw [hms]; exact hON)
    have h3 : onceBudget { st' with running := st'.running.erase ce } id0 flag0 =
        onceBudget st' id0 flag0 := rfl
    rw [h3]
    exact h2.trans (le_of_eq (hmb id0 flag0))

theorem emitPhases_pres (er : EmitRec) (H : DispatchPres er) (ce : String)
    (d? : Option CEDef) (bs : List (Option Bucket)) (e0 : EventObj) (st : EvState)
    (hbs : ∀ id0 flag0, onceOnlyAt st.subs id0 flag0 = true →
      bs.all (goodBucket id0 flag0) = true) :
    StPres st (emitPhases er ce d? bs e0 st).2 := by
  simp only [emitPhases]
  have h1 : StPres st (invokeBuckets er true true bs e0 st).2 :=
    invokeBuckets_pres er H true true bs e0 st hbs
  set q1 := invokeBuckets er true true bs e0 st with hq1
  have h2 : StPres q1.2 (runDefaultPhase er ce d? (setOk q1.1) q1.2).2 :=
    runDefaultPhase_pres er H ce d? (setOk q1.1) q1.2
  set q2 := runDefaultPhase er ce d? (setOk q1.1) q1.2 with hq2
  have h12 : StPres st q2.2 := stPres_trans h1 h2
  have h3 : StPres q2.2 (if q2.1.status.ok = some true then
      invokeBuckets er true false bs q2.1 q2.2 else q2).2 := by
    split
    · refine invokeBuckets_pres er H true false bs q2.1 q2.2 ?_
      intro id0 flag0 h
      rw [h12.1] at h
      exact hbs id0 flag0 h
    · exact stPres_refl
  exact stPres_trans h12 h3

theorem emitCore_pres (er : EmitRec) (H : DispatchPres er) (st : EvState) (emitter : Obj)
    (ce emN evN : String) (pl : DPayload) :
    StPres st (emitCore er st emitter ce emN evN pl).2 := by
  simp only [emitCore]
  have hbsAux : ∀ (mid : EvState), mid.subs = st.subs →
      ∀ id0 flag0, onceOnlyAt mid.subs id0 flag0 = true →
      ([st.subs.lookup ce, st.subs.lookup (emN ++ ":*"), st.subs.lookup ("*:" ++ evN),
        st.subs.lookup "*:*"].all (goodBucket id0 flag0)) = true := by
    intro mid hms id0 flag0 h
    rw [hms] at h
    simp only [List.all_cons, List.all_nil, Bool.and_eq_true]
    refine ⟨onceOnly_lookup_goodBucket _ _ _ _ h,
      onceOnly_lookup_goodBucket _ _ _ _ h,
      onceOnly_lookup_goodBucket _ _ _ _ h,
      ⟨onceOnly_lookup_goodBucket _ _ _ _ h, trivial⟩⟩
  by_cases hw : ((Option.map (fun x => x.unSilencable) (List.lookup ce st.ce)).getD false &&
      pl.silent) = true
  · simp only [hw, if_true]
    refine stPres_sandwich st
      { st with running := ce :: st.running, trace := st.trace ++ [.warnSilent emN evN] }
      _ ce rfl rfl ?_ ?_
    · intro id0 flag0
      simp [onceBudget, countCb_append, countCb, cbIds, flagGet]
    · exact emitPhases_pres er H ce _ _ _ _ (hbsAux _ rfl)
  · simp only [hw, if_false]
    refine stPres_sandwich st { st with running := ce :: st.running } _ ce rfl rfl ?_ ?_
    · intro id0 flag0; rfl
    · exact emitPhases_pres er H ce _ _ _ _ (hbsAux _ rfl)

theorem emitD_pres (fuel : Nat) : DispatchPres (emitD fuel) := by
  induction fuel with
  | zero => intro st em t pl; exact stPres_refl
  | succ n ih =>
      intro st em t pl
      simp only [emitD]
      set ceN := (if hasColon t = true then t
        else em.emitterName.getD "undefined" ++ ":" ++ t) with hce
      cases hp : parseCE ceN with
      | none =>
          simp only [hp]
          exact stPres_addTrace0 _ _ (fun id => by simp [countCb, cbIds])
      | some pr =>
          obtain ⟨emN, evN⟩ := pr
          simp only [hp]
          split
          · exact stPres_addTrace0 _ _ (fun id => by simp [countCb, cbIds])
          · exact emitCore_pres (emitD n) ih st em _ _ _ pl

theorem invokeSubsBucket_halted (er : EmitRec) (cf bf : Bool) (b? : Option Bucket)
    (e : EventObj) (st : EvState) (hh : e.status.halted.isSome = true) :
    invokeSubsBucket er cf bf b? e st = (e, st) := by
  cases b? <;> simp [invokeSubsBucket, hh]

theorem invokeSubsBucket_none (er : EmitRec) (cf bf : Bool) (e : EventObj) (st : EvState) :
    invokeSubsBucket er cf bf none e st = (e, st) := rfl

theorem invokeSubsBucket_some (er : EmitRec) (cf bf : Bool) (bucket : Bucket)
    (e : EventObj) (st : EvState) (h1 : e.status.halted = none) (h2 : e.silent = false) :
    invokeSubsBucket er cf bf (some bucket) e st =
      invokeSubsList er cf bf (if bf then bucket.b else bucket.a) e st := by
  simp [invokeSubsBucket, h1, h2]

theorem hasColon_ab : hasColon "a:b" = true := by decide

theorem parseCE_ab : parseCE "a:b" = some ("a", "b") := by decide

theorem append_star_b : "*:" ++ "b" = "*:b" := by decide

theorem append_a_star : "a" ++ ":*" = "a:*" := by decide

theorem invokeSubsList_inert (er : EmitRec) (cf bf : Bool) (ids : List Nat)
    (e : EventObj) (st : EvState) (hh : e.status.halted = none) (hs : e.silent = false) :
    invokeSubsList er cf bf (ids.map inert) e st =
      (e, { st with trace := st.trace ++ ids.map (fun i => .cbCall i e.type) }) := by
  induction ids generalizing st with
  | nil => simp [invokeSubsList]
  | cons i t ih =>
      simp [invokeSubsList, invokeCallback, runActions, inert, hs, hh, ih, List.append_assoc]

theorem applyPreventDefault_fields (e : EventObj) (r : Option String) :
    (applyPreventDefault e r).silent = e.silent ∧
    (applyPreventDefault e r).status.halted = e.status.halted ∧
    (applyPreventDefault e r).status.ok = e.status.ok ∧
    (applyPreventDefault e r).status.preventedFn = e.status.preventedFn ∧
    (applyPreventDefault e r).status.defaultFn = e.status.defaultFn ∧
    (applyPreventDefault e r).type = e.type ∧
    (applyPreventDefault e r).status.unSilencable = e.status.unSilencable := by
  unfold applyPreventDefault
  split
  · exact ⟨rfl, rfl, rfl, rfl, rfl, rfl, rfl⟩
  split
  · exact ⟨rfl, rfl, rfl, rfl, rfl, rfl, rfl⟩
  · exact ⟨rfl, rfl, rfl, rfl, rfl, rfl, rfl⟩

theorem applyPreventDefaultContinue_fields (e : EventObj) (r : Option String) :
    (applyPreventDefaultContinue e r).silent = e.silent ∧
    (applyPreventDefaultContinue e r).status.halted = e.status.halted ∧
    (applyPreventDefaultContinue e r).status.ok = e.status.ok ∧
    (applyPreventDefaultContinue e r).status.preventedFn = e.status.preventedFn ∧
    (applyPreventDefaultContinue e r).status.defaultFn = e.status.defaultFn ∧
    (applyPreventDefaultContinue e r).type = e.type ∧
    (applyPreventDefaultContinue e r).status.unSilencable = e.status.unSilencable := by
  unfold applyPreventDefaultContinue
  split
  · exact ⟨rfl, rfl, rfl, rfl, rfl, rfl, rfl⟩
  split
  · exact ⟨rfl, rfl, rfl, rfl, rfl, rfl, rfl⟩
  · exact ⟨rfl, rfl, rfl, rfl, rfl, rfl, rfl⟩

theorem runActions_tame (er : EmitRec) (body : List Action) (e : EventObj) (st : EvState)
    (h : tameBody body = true) :
    (runActions er body e st).2 = st ∧
    (runActions er body e st).1.silent = e.silent ∧
    (runActions er body e st).1.status.halted = e.status.halted ∧
    (runActions er body e st).1.status.ok = e.status.ok ∧
    (runActions er body e st).1.status.preventedFn = e.status.preventedFn ∧
    (runActions er body e st).1.status.defaultFn = e.status.defaultFn ∧
    (runActions er body e st).1.type = e.type ∧
    (runActions er body e st).1.status.unSilencable = e.status.unSilencable := by
  induction body generalizing e st with
  | nil => exact ⟨rfl, rfl, rfl, rfl, rfl, rfl, rfl, rfl⟩
  | cons a rest ih =>
      simp only [tameBody, List.all_cons, Bool.and_eq_true] at h
      cases a with
      | haltA r => simp at h
      | silentA => simp at h
      | emitA t => simp at h
      | preventDefaultA r =>
          obtain ⟨f1, f2, f3, f4, f5, f6, f7⟩ := applyPreventDefault_fields e r
          obtain ⟨g0, g1, g2, g3, g4, g5, g6, g7⟩ := ih (applyPreventDefault e r) st h.2
          simp only [runActions, runAction]
          exact ⟨g0, g1.trans f1, g2.trans f2, g3.trans f3, g4.trans f4, g5.trans f5,
            g6.trans f6, g7.trans f7⟩
      | preventDefaultContinueA r =>
          obtain ⟨f1, f2, f3, f4, f5, f6, f7⟩ := applyPreventDefaultContinue_fields e r
          obtain ⟨g0, g1, g2, g3, g4, g5, g6, g7⟩ := ih (applyPreventDefaultContinue e r) st h.2
          simp only [runActions, runAction]
          exact ⟨g0, g1.trans f1, g2.trans f2, g3.trans f3, g4.trans f4, g5.trans f5,
            g6.trans f6, g7.trans f7⟩

theorem runActions_tame_state (er : EmitRec) (body : List Action) (e : EventObj) (st : EvState)
    (h : tameBody body = true) : (runActions er body e st).2 = st :=
  (runActions_tame er body e st h).1

theorem runActions_tame_silent (er : EmitRec) (body : List Action) (e : EventObj) (st : EvState)
    (h : tameBody body = true) : (runActions er body e st).1.silent = e.silent :=
  (runActions_tame er body e st h).2.1

theorem runActions_tame_halted (er : EmitRec) (body : List Action) (e : EventObj) (st : EvState)
    (h : tameBody body = true) : (runActions er body e st).1.status.halted = e.status.halted :=
  (runActions_tame er body e st h).2.2.1

theorem runActions_tame_ok (er : EmitRec) (body : List Action) (e : EventObj) (st : EvState)
    (h : tameBody body = true) : (runActions er body e st).1.status.ok = e.status.ok :=
  (runActions_tame er body e st h).2.2.2.1

theorem runActions_tame_prevFn (er : EmitRec) (body : List Action) (e : EventObj) (st : EvState)
    (h : tameBody body = true) :
    (runActions er body e st).1.status.preventedFn = e.status.preventedFn :=
  (runActions_tame er body e st h).2.2.2.2.1

theorem runActions_tame_defFn (er : EmitRec) (body : List Action) (e : EventObj) (st : EvState)
    (h : tameBody body = true) :
    (runActions er body e st).1.status.defaultFn = e.status.defaultFn :=
  (runActions_tame er body e st h).2.2.2.2.2.1

theorem runActions_tame_type (er : EmitRec) (body : List Action) (e : EventObj) (st : EvState)
    (h : tameBody body = true) : (runActions er body e st).1.type = e.type :=
  (runActions_tame er body e st h).2.2.2.2.2.2.1

theorem runActions_tame_unSil (er : EmitRec) (body : List Action) (e : EventObj) (st : EvState)
    (h : tameBody body = true) :
    (runActions er body e st).1.status.unSilencable = e.status.unSilencable :=
  (runActions_tame er body e st h).2.2.2.2.2.2.2

theorem lookup_append_some {α : Type} (l l' : List (String × α)) (k : String) (d : α)
    (h : l.lookup k = some d) : (l ++ l').lookup k = some d := by
  induction l with
  | nil => simp [List.lookup] at h
  | cons p t ih =>
      simp only [List.cons_append, List.lookup] at h ⊢
      cases hk : k == p.1
      · rw [hk] at h; exact ih h
      · rw [hk] at h; exact h

theorem lookup_append_none {α : Type} (l l' : List (String × α)) (k : String)
    (h : l.lookup k = none) : (l ++ l').lookup k = l'.lookup k := by
  induction l with
  | nil => simp
  | cons p t ih =>
      simp only [List.cons_append, List.lookup] at h ⊢
      cases hk : k == p.1
      · rw [hk] at h; exact ih h
      · rw [hk] at h; exact absurd h (by simp)

theorem mergePayload_keeps (env : Nat → Nat) (pk : List String)
    (e payload : List (String × Descriptor)) (k : String) (d0 : Descriptor)
    (h : e.lookup k = some d0) : (mergePayload env pk e payload).lookup k = some d0 := by
  induction payload generalizing e with
  | nil => exact h
  | cons p rest ih =>
      simp only [mergePayload, List.foldl_cons]
      refine ih _ ?_
      simp only [mergeStep]
      split
      · exact h
      · exact lookup_append_some _ _ _ _ h

theorem mergePayload_new (env : Nat → Nat) (pk : List String)
    (e payload : List (String × Descriptor)) (k : String) (d : Descriptor)
    (hp : payload.lookup k = some d) (he : e.lookup k = none)
    (hpk : pk.contains k = false) :
    (mergePayload env pk e payload).lookup k = some (mergeDesc env d) := by
  induction payload generalizing e with
  | nil => simp [List.lookup] at hp
  | cons p rest ih =>
      obtain ⟨k', d'⟩ := p
      simp only [mergePayload, List.foldl_cons] at *
      simp only [List.lookup] at hp
      by_cases hkk : k = k'
      · subst hkk
        rw [beq_self_eq_true] at hp
        injection hp with hd
        subst hd
        have hstep : mergeStep env pk e (k, d') = e ++ [(k, mergeDesc env d')] := by
          simp only [mergeStep, he, Option.isSome_none, hpk, Bool.or_self,
            Bool.false_eq_true, if_false]
        rw [hstep]
        refine mergePayload_keeps env pk _ rest k (mergeDesc env d') ?_
        rw [lookup_append_none _ _ _ he]
        simp [List.lookup]
      · rw [beq_eq_false_iff_ne.mpr hkk] at hp
        refine ih _ hp ?_
        simp only [mergeStep]
        split
        · exact he
        · rw [lookup_append_none _ _ _ he]
          simp [List.lookup, beq_eq_false_iff_ne.mpr hkk]

theorem lookup_erasek_self {α : Type} (l : List (String × α)) (k : String)
    (hnd : (l.map Prod.fst).Nodup) : (erasek l k).lookup k = none := by
  induction l with
  | nil => rfl
  | cons p t ih =>
      obtain ⟨k', v'⟩ := p
      simp only [List.map_cons, List.nodup_cons] at hnd
      by_cases hk : k' = k
      · subst hk
        simp only [erasek, if_true]
        cases hl : List.lookup k' t with
        | none => rfl
        | some v =>
            exfalso
            have : k' ∈ t.map Prod.fst := by
              clear ih hnd
              induction t with
              | nil => simp [List.lookup] at hl
              | cons q s ihq =>
                  simp only [List.lookup] at hl
                  cases hq : k' == q.1
                  · rw [hq] at hl
                    simp only [List.map_cons, List.mem_cons]
                    exact Or.inr (ihq hl)
                  · simp only [List.map_cons, List.mem_cons]
                    exact Or.inl (beq_iff_eq.mp hq)
            exact hnd.1 this
      · simp only [erasek, hk, if_false, List.lookup, beq_eq_false_iff_ne.mpr
          (fun hh : k = k' => hk hh.symm)]
        exact ih hnd.2

theorem noEmptyBuckets_erasek (l : List (String × Bucket)) (k : String)
    (h : noEmptyBuckets l = true) : noEmptyBuckets (erasek l k) = true := by
  induction l with
  | nil => exact h
  | cons p t ih =>
      simp only [noEmptyBuckets, List.all_cons, Bool.and_eq_true] at h
      by_cases hk : p.1 = k
      · simp only [erasek, hk, if_true]
        exact h.2
      · simp only [erasek, hk, if_false, noEmptyBuckets, List.all_cons, Bool.and_eq_true]
        exact ⟨h.1, ih h.2⟩

theorem noEmptyBuckets_setk (l : List (String × Bucket)) (k : String) (v : Bucket)
    (h : noEmptyBuckets l = true) (hv : (v.b.isEmpty && v.a.isEmpty) = false) :
    noEmptyBuckets (setk l k v) = true := by
  induction l with
  | nil =>
      simp only [setk, noEmptyBuckets, List.all_cons, List.all_nil, Bool.and_true, hv]
      rfl
  | cons p t ih =>
      simp only [noEmptyBuckets, List.all_cons, Bool.and_eq_true] at h
      by_cases hk : p.1 = k
      · simp only [setk, hk, if_true, noEmptyBuckets, List.all_cons, Bool.and_eq_true]
        refine ⟨by simp [hv], ?_⟩
        exact h.2
      · simp only [setk, hk, if_false, noEmptyBuckets, List.all_cons, Bool.and_eq_true]
        exact ⟨h.1, ih h.2⟩

theorem fireDetachNotifier_subs (st : EvState) (k dk ce : String) :
    (fireDetachNotifier st k dk ce).subs = st.subs := by
  unfold fireDetachNotifier
  split
  · rfl
  · split <;> rfl

theorem removeSubscriber_subs (st : EvState) (l : Option Nat) (before : Bool)
    (ce : String) (cb? : Option Callback) :
    (removeSubscriber st l before ce cb?).subs =
      removeSubscriberSubs st.subs (l.getD 0) before ce cb? := by
  unfold removeSubscriber
  split
  · rfl
  · simp [apply_ite EvState.subs, fireDetachNotifier_subs]

theorem length_filter_not {α : Type} (p : α → Bool) (l : List α) :
    (l.filter (fun a => !(p a))).length + l.countP p = l.length := by
  induction l with
  | nil => rfl
  | cons x t ih =>
      cases hx : p x <;>
        simp [List.filter_cons, List.countP_cons, hx, Nat.add_assoc, Nat.add_comm,
          Nat.add_left_comm, ← ih]

theorem removeSubscriberSubs_noEmpty (subs : List (String × Bucket)) (o : Nat) (b : Bool)
    (ce : String) (cb? : Option Callback) (h : noEmptyBuckets subs = true) :
    noEmptyBuckets (removeSubscriberSubs subs o b ce cb?) = true := by
  simp only [removeSubscriberSubs]
  split
  · exact h
  · split <;> split
    · exact noEmptyBuckets_erasek _ _ h
    · rename_i hne
      exact noEmptyBuckets_setk _ _ _ h (by simpa using hne)
    · exact noEmptyBuckets_erasek _ _ h
    · rename_i hne
      exact noEmptyBuckets_setk _ _ _ h (by simpa using hne)

theorem removeSubscriber_noEmpty (st : EvState) (l : Option Nat) (b : Bool)
    (ce : String) (cb? : Option Callback) (h : noEmptyBuckets st.subs = true) :
    noEmptyBuckets (removeSubscriber st l b ce cb?).subs = true := by
  rw [removeSubscriber_subs]
  exact removeSubscriberSubs_noEmpty _ _ _ _ _ h

theorem removeSubscribers_noEmpty (st : EvState) (l : Option Nat) (pat : String)
    (h : noEmptyBuckets st.subs = true) :
    noEmptyBuckets (removeSubscribers st l pat).subs = true := by
  simp only [removeSubscribers]
  split
  · exact h
  · split
    · exact removeSubscriber_noEmpty _ _ _ _ _ (removeSubscriber_noEmpty _ _ _ _ _ h)
    · rename_i emOpt ev heq hwild
      generalize st.subs.map Prod.fst = keys
      induction keys generalizing st with
      | nil => exact h
      | cons key rest ih =>
          simp only [List.foldl_cons]
          refine ih _ ?_
          split
          · split
            · exact removeSubscriber_noEmpty _ _ _ _ _ (removeSubscriber_noEmpty _ _ _ _ _ h)
            · exact h
          · exact h

theorem topicPhase_remove_self (subs : List (String × Bucket)) (oid : Nat) (b : Bool)
    (ce : String) (cb? : Option Callback) (hnd : (subs.map Prod.fst).Nodup) :
    topicPhase (removeSubscriberSubs subs oid b ce cb?) ce b =
      (topicPhase subs ce b).filter (fun it => !(matchesRemoval oid cb? it)) := by
  simp only [removeSubscriberSubs]
  split
  · rename_i heq
    simp [topicPhase, heq]
  · rename_i bkt heq
    cases b with
    | true =>
        simp only [if_true]
        split
        · rename_i hemp
          simp only [Bool.and_eq_true, List.isEmpty_iff] at hemp
          simp [topicPhase, lookup_erasek_self _ _ hnd, phaseSeq, heq, hemp.1]
        · simp [topicPhase, lookup_setk, phaseSeq, heq]
    | false =>
        simp only [Bool.false_eq_true, if_false]
        split
        · rename_i hemp
          simp only [Bool.and_eq_true, List.isEmpty_iff] at hemp
          simp [topicPhase, lookup_erasek_self _ _ hnd, phaseSeq, heq, hemp.2]
        · simp [topicPhase, lookup_setk, phaseSeq, heq]

theorem topicPhase_remove_other (subs : List (String × Bucket)) (oid : Nat) (b : Bool)
    (ce : String) (cb? : Option Callback) (hnd : (subs.map Prod.fst).Nodup) :
    topicPhase (removeSubscriberSubs subs oid b ce cb?) ce (!b) =
      topicPhase subs ce (!b) := by
  simp only [removeSubscriberSubs]
  split
  · rfl
  · rename_i bkt heq
    cases b with
    | true =>
        simp only [if_true]
        split
        · rename_i hemp
          simp only [Bool.and_eq_true, List.isEmpty_iff] at hemp
          simp [topicPhase, lookup_erasek_self _ _ hnd, phaseSeq, heq, hemp.2]
        · simp [topicPhase, lookup_setk, phaseSeq, heq]
    | false =>
        simp only [Bool.false_eq_true, if_false]
        split
        · rename_i hemp
          simp only [Bool.and_eq_true, List.isEmpty_iff] at hemp
          simp [topicPhase, lookup_erasek_self _ _ hnd, phaseSeq, heq, hemp.1]
        · simp [topicPhase, lookup_setk, phaseSeq, heq]

theorem removeSubscriberSubs_deletes (subs : List (String × Bucket)) (oid : Nat) (b : Bool)
    (ce : String) (cb? : Option Callback) (hnd : (subs.map Prod.fst).Nodup)
    (h1 : (topicPhase subs ce b).filter (fun it => !(matchesRemoval oid cb? it)) = [])
    (h2 : topicPhase subs ce (!b) = []) :
    (removeSubscriberSubs subs oid b ce cb?).lookup ce = none := by
  simp only [removeSubscriberSubs]
  split
  · rename_i heq; exact heq
  · rename_i bkt heq
    cases b with
    | true =>
        simp only [topicPhase, heq, phaseSeq, if_true, Bool.not_true, Bool.false_eq_true,
          if_false] at h1 h2
        simp only [if_true, h1, h2]
        simp only [List.isEmpty_nil, Bool.and_self, if_true]
        exact lookup_erasek_self _ _ hnd
    | false =>
        simp only [topicPhase, heq, phaseSeq, Bool.false_eq_true, if_false, Bool.not_false,
          if_true] at h1 h2
        simp only [Bool.false_eq_true, if_false, h1, h2]
        simp only [List.isEmpty_nil, Bool.and_self, if_true]
        exact lookup_erasek_self _ _ hnd


/-! ## Claim C1 — cross-bucket priority order. -/

/-- Claim C1 as stated is false: with one inert subscriber per bucket in each
phase (ids 1/5 on `a:b`, 2/6 on `*:b`, 3/7 on `a:*`, 4/8 on `*:*`), emitting
`a:b` invokes them as `[1, 3, 2, 4, 5, 7, 6, 8]` — the `a:*`
(wildcard-event) subscriber runs *before* the `*:b` (wildcard-emitter) one in
both phases, not after it as the claim's order
`[1, 2, 3, 4, 5, 6, 7, 8]` would require. -/
theorem C1_counterexample :
    cbIds (emitD 2 c1State instObj "a:b" {}).2.trace = [1, 3, 2, 4, 5, 7, 6, 8] ∧
    cbIds (emitD 2 c1State instObj "a:b" {}).2.trace ≠ [1, 2, 3, 4, 5, 6, 7, 8] :=
  ⟨by decide, by decide⟩

/-! ## Claim C4 — once-notifiers. -/

/-- Claim C4 (code behaviour at the spec's own example, the failing input):
after `notify('red:*', cb₇, owner, once=true)`, subscribing to `red:save` and
then to `red:create` fires the notifier callback **twice**, and the `red:*`
notifier record is still present afterwards — because the `once` cleanup
deletes `_notifiers[customEvent]` (the concrete subscription topic) instead of
the wildcard key the notifier is stored under.  The repository's own test
(`check notify() wildcard once`) asserts exactly this double firing. -/
theorem C4_counterexample :
    countNotify c4State3.trace 7 = 2 ∧
    c4State3.notifiers.lookup "red:*" = some ⟨7, 1, true⟩ ∧
    ¬(countNotify c4State3.trace 7 = 1 ∧ c4State3.notifiers.lookup "red:*" = none) :=
  ⟨by decide, by decide, by decide⟩

/-! ## Claim C9 — bare-name subscribe/detach round trip. -/

/-- Claim C9: subscribing with the bare event name `save` does register the
record under `UI:save`, but a subsequent `detach(owner, 'save')` removes
nothing at all — `_removeSubscribers` passes the raw topic `'save'` to
`_removeSubscriber`, which looks up `_subs['save']` and finds nothing, so the
registry still contains the record afterwards, contradicting the documented
`'tap' --> alias for 'UI:tap'` aliasing on removal. -/
theorem C9_bug :
    c9State.subs.lookup "UI:save" = some { b := [{ o := 1, cb := .plain 9 [] }], a := [] } ∧
    (removeSubscribers c9State (some 1) "save").subs = c9State.subs :=
  ⟨by decide, by decide⟩

/-! ## Claim C7 — handle detachment. -/

/-- Claim C7 as stated is false: subscribing owner `1` twice with the same
callback to `before('a:b')` yields two records, and detaching the (second)
returned handle removes **both** of them — the topic entry disappears
entirely, so a single `detach()` removed two subscriber records, not exactly
one. -/
theorem C7_counterexample :
    (c7State.subs.lookup "a:b").map (fun bk => bk.b.length) = some 2 ∧
    (addSubscriber
        (addSubscriber {} (some ⟨1, none⟩) true "a:b" (.plain 9 []) none false).1
        (some ⟨1, none⟩) true "a:b" (.plain 9 []) none false).2 = some c7Handle ∧
    (detachHandle c7State c7Handle).subs.lookup "a:b" = none :=
  ⟨by decide, by decide, by decide⟩

/-! ## Claim C8 — once-subscribers. -/

/-- Claim C8 as stated is false: a `onceBefore`-style subscription to `*:*`
(user callback 9, `_detached` flag 0) whose callback emits the different
matching topic `c:d` while handling `a:b` is invoked **twice** within the two
matching emissions — the wrapper sets `handler._detached` only after the
wrapped callback returns, so the re-entrant matching emission slips past the
guard. -/
theorem C8_counterexample :
    countCb (emitD 3 c8State instObj "a:b" {}).2.trace 9 = 2 ∧
    ¬ countCb (emitD 3 c8State instObj "a:b" {}).2.trace 9 ≤ 1 :=
  ⟨by decide, by decide⟩

/-- The double firing does not require the once-callback to emit a matching
topic itself: a once-subscription on `a:*` (user callback 9) whose callback
emits only the non-matching `x:y`, while the `x:y` subscriber emits the
matching `a:c`, is also invoked twice — the re-entrant matching emission
reaches the wrapper while `handler._detached` is still unset.  Restricting
only the callback's *own* emissions to non-matching topics therefore does not
restore the at-most-once guarantee; the guarantee needs the once-callback to
perform no synchronous emit at all. -/
theorem onceWrap_transitive_refire :
    countCb (emitD 4 c8TransState instObj "a:b" {}).2.trace 9 = 2 :=
  by decide

/-! ## Claim C5 — payload merging. -/

/-- Claim C5 as stated is false: merging a payload whose property `x` is an
accessor (getter 5) into a fresh event object stores a plain writable data
property holding the getter's current value — `e[key] = payload[key]` is
taken because an accessor descriptor has no `writable` attribute — not the
original accessor descriptor the claim promises (the code's own
`payloadGetters` parameter documents that "getters on `payload` are
ignored"). -/
theorem C5_counterexample :
    mergePayload (fun i => i) baseEventKeys [] [("x", .accessor 5)] = [("x", .data 5 true)] ∧
    List.lookup "x" (mergePayload (fun i => i) baseEventKeys [] [("x", .accessor 5)]) ≠
      some (.accessor 5) :=
  ⟨by decide, by decide⟩



/-! ## Claim C1 (amended) — cross-bucket priority order. -/

/-- Claim C1, amended: for every emission of a concrete topic, matching
subscribers are invoked in the fixed cross-bucket priority order
exact topic, then `emitter:*` (wildcard event name), then `*:event`
(wildcard emitter name), then `*:*`, in both the before and the after phase —
the dispatcher iterates `[subs, named_wildcard_subs, wildcard_named_subs,
wildcard_wildcard_subs]`.  (The claim as frozen had the two middle buckets in
the opposite order.) -/
theorem C1_order (fuel : Nat) (st : EvState) (b1 b2 b3 b4 a1 a2 a3 a4 : List Nat)
    (hsub : st.subs.lookup "a:b" = some ⟨b1.map inert, a1.map inert⟩)
    (hwn : st.subs.lookup "*:b" = some ⟨b2.map inert, a2.map inert⟩)
    (hnw : st.subs.lookup "a:*" = some ⟨b3.map inert, a3.map inert⟩)
    (hww : st.subs.lookup "*:*" = some ⟨b4.map inert, a4.map inert⟩)
    (hce : st.ce.lookup "a:b" = none)
    (hrun : st.running.contains "a:b" = false) :
    (emitD (fuel+1) st instObj "a:b" {}).2.trace =
      st.trace ++ ((b1 ++ b3 ++ b2 ++ b4) ++ (a1 ++ a3 ++ a2 ++ a4)).map (fun i => .cbCall i "b") := by
  simp only [emitD, hasColon_ab, if_true, parseCE_ab, emitCore, emitPhases, append_star_b,
    append_a_star, hrun, Bool.false_eq_true, if_false, hsub, hwn, hnw, hww, hce]
  simp [invokeBuckets, invokeSubsBucket, invokeSubsList_inert, runDefaultPhase, setOk,
    List.append_assoc]

/-- Witness for `C1_order` at one inert subscriber per bucket and phase. -/
theorem C1_order_witness :
    c1State.subs.lookup "a:b" = some ⟨[1].map inert, [5].map inert⟩ ∧
    c1State.subs.lookup "*:b" = some ⟨[2].map inert, [6].map inert⟩ ∧
    c1State.subs.lookup "a:*" = some ⟨[3].map inert, [7].map inert⟩ ∧
    c1State.subs.lookup "*:*" = some ⟨[4].map inert, [8].map inert⟩ ∧
    c1State.ce.lookup "a:b" = none ∧
    c1State.running.contains "a:b" = false ∧
    (emitD 1 c1State instObj "a:b" {}).2.trace =
      c1State.trace ++ (([1] ++ [3] ++ [2] ++ [4]) ++ ([5] ++ [7] ++ [6] ++ [8])).map
        (fun i => .cbCall i "b") :=
  ⟨by decide, by decide, by decide, by decide, by decide, by decide,
    C1_order 0 c1State [1] [2] [3] [4] [5] [6] [7] [8] (by decide) (by decide) (by decide)
      (by decide) (by decide) (by decide)⟩


/-! ## Claim C2 — halting. -/

/-- Claim C2: for every emission on a topic whose definition is not
`unHaltable`, when a before-subscriber calls `halt(reason)`: neither
`defaultFn` nor `preventedFn` runs and no after-subscriber runs (the trace
grows by exactly the halting subscriber's invocation), the registry and the
running set are untouched, `status.halted` is the reason string (or `true`
when the reason is missing or empty), `status.ok` is `false`, and the
`defaultFn`/`preventedFn` status flags stay unset. -/
theorem C2_halt (fuel : Nat) (st : EvState) (hid : Nat) (r : Option String) (d : CEDef)
    (restB afters : List SubItem) (bk2 bk3 bk4 : Option Bucket)
    (hsub : st.subs.lookup "a:b" =
      some { b := { o := 1, cb := .plain hid [.haltA r] } :: restB, a := afters })
    (hwn : st.subs.lookup "*:b" = bk2) (hnw : st.subs.lookup "a:*" = bk3)
    (hww : st.subs.lookup "*:*" = bk4)
    (hce : st.ce.lookup "a:b" = some d)
    (hd : d.unHaltable = false)
    (hrun : st.running.contains "a:b" = false) :
    (emitD (fuel + 1) st instObj "a:b" {}).2.trace = st.trace ++ [.cbCall hid "b"] ∧
    (emitD (fuel + 1) st instObj "a:b" {}).2.subs = st.subs ∧
    (emitD (fuel + 1) st instObj "a:b" {}).2.running = st.running ∧
    ((emitD (fuel + 1) st instObj "a:b" {}).1.map fun e => e.status.halted) =
      some (some (mkHaltVal r)) ∧
    ((emitD (fuel + 1) st instObj "a:b" {}).1.map fun e => e.status.ok) = some (some false) ∧
    ((emitD (fuel + 1) st instObj "a:b" {}).1.map fun e => e.status.defaultFn) = some false ∧
    ((emitD (fuel + 1) st instObj "a:b" {}).1.map fun e => e.status.preventedFn) = some false := by
  simp only [emitD, hasColon_ab, if_true, parseCE_ab, hrun, Bool.false_eq_true, if_false,
    emitCore, emitPhases, hce, hsub, hwn, hnw, hww, append_star_b, append_a_star]
  simp [invokeBuckets, invokeSubsBucket_some, invokeSubsBucket_halted, invokeSubsList,
    invokeCallback, runActions, runAction, applyHalt, hd, runDefaultPhase, setOk]


/-- Witness for `C2_halt`: a halting before-subscriber with reason `stop`. -/
theorem C2_halt_witness :
    c2WitState.subs.lookup "a:b" =
      some { b := { o := 1, cb := .plain 7 [.haltA (some "stop")] } :: ([] : List SubItem),
             a := [inert 9] } ∧
    c2WitState.ce.lookup "a:b" = some { defaultFn := some [] } ∧
    CEDef.unHaltable { defaultFn := some [] } = false ∧
    c2WitState.running.contains "a:b" = false ∧
    ((emitD 1 c2WitState instObj "a:b" {}).1.map fun e => e.status.halted) =
      some (some (mkHaltVal (some "stop"))) ∧
    ((emitD 1 c2WitState instObj "a:b" {}).1.map fun e => e.status.ok) = some (some false) ∧
    (emitD 1 c2WitState instObj "a:b" {}).2.trace = c2WitState.trace ++ [.cbCall 7 "b"] := by
  have happ := C2_halt 0 c2WitState 7 (some "stop") { defaultFn := some [] } [] [inert 9]
    none none none (by decide) (by decide) (by decide) (by decide) (by decide) (by decide)
    (by decide)
  exact ⟨by decide, by decide, by decide, by decide, happ.2.2.2.1, happ.2.2.2.2.1, happ.1⟩


/-! ## Claim C3 — preventDefault. -/

/-- Claim C3: for every emission on a preventable topic with a definition
whose `preventedFn` exists, when a before-subscriber calls
`preventDefault(reason)`: `preventedFn` is invoked and `defaultFn` is not
(the trace grows by exactly the subscriber invocation and the
`preventedFn` call — in particular no after-subscriber runs),
`status.preventedFn` is `true`, `status.defaultFn` stays unset, and
`status.ok` is `false`. -/
theorem C3_preventDefault (fuel : Nat) (st : EvState) (pid : Nat) (r : Option String) (d : CEDef)
    (pf : List Action) (afters : List SubItem)
    (hsub : st.subs.lookup "a:b" =
      some { b := [{ o := 1, cb := .plain pid [.preventDefaultA r] }], a := afters })
    (hwn : st.subs.lookup "*:b" = none) (hnw : st.subs.lookup "a:*" = none)
    (hww : st.subs.lookup "*:*" = none)
    (hce : st.ce.lookup "a:b" = some d)
    (hpf : d.preventedFn = some pf) (htame : tameBody pf = true)
    (hup : d.unPreventable = false)
    (hrun : st.running.contains "a:b" = false) :
    (emitD (fuel + 1) st instObj "a:b" {}).2.trace =
      st.trace ++ [.cbCall pid "b", .preventedFnCall "a:b"] ∧
    (emitD (fuel + 1) st instObj "a:b" {}).2.subs = st.subs ∧
    (emitD (fuel + 1) st instObj "a:b" {}).2.running = st.running ∧
    ((emitD (fuel + 1) st instObj "a:b" {}).1.map fun e => e.status.ok) = some (some false) ∧
    ((emitD (fuel + 1) st instObj "a:b" {}).1.map fun e => e.status.preventedFn) = some true ∧
    ((emitD (fuel + 1) st instObj "a:b" {}).1.map fun e => e.status.defaultFn) = some false := by
  simp only [emitD, hasColon_ab, if_true, parseCE_ab, hrun, Bool.false_eq_true, if_false,
    emitCore, emitPhases, hce, hsub, hwn, hnw, hww, append_star_b, append_a_star]
  simp [invokeBuckets, invokeSubsBucket_some, invokeSubsBucket_halted, invokeSubsBucket_none,
    invokeSubsList,
    invokeCallback, runActions, runAction, applyPreventDefault, hup, runDefaultPhase, setOk,
    hpf, htame, runActions_tame_state, runActions_tame_silent, runActions_tame_halted,
    runActions_tame_ok, runActions_tame_prevFn, runActions_tame_defFn, runActions_tame_type,
    runActions_tame_unSil]


/-- Witness for `C3_preventDefault`. -/
theorem C3_preventDefault_witness :
    c3WitState.subs.lookup "a:b" =
      some { b := [{ o := 1, cb := .plain 7 [.preventDefaultA none] }], a := [inert 9] } ∧
    c3WitState.ce.lookup "a:b" = some { defaultFn := some [], preventedFn := some [] } ∧
    tameBody [] = true ∧
    ((emitD 1 c3WitState instObj "a:b" {}).1.map fun e => e.status.ok) = some (some false) ∧
    ((emitD 1 c3WitState instObj "a:b" {}).1.map fun e => e.status.preventedFn) = some true ∧
    (emitD 1 c3WitState instObj "a:b" {}).2.trace =
      c3WitState.trace ++ [.cbCall 7 "b", .preventedFnCall "a:b"] := by
  have happ := C3_preventDefault 0 c3WitState 7 none
    { defaultFn := some [], preventedFn := some [] } [] [inert 9]
    (by decide) (by decide) (by decide) (by decide) (by decide) (by decide) (by decide)
    (by decide) (by decide)
  exact ⟨by decide, by decide, by decide, happ.2.2.2.1, happ.2.2.2.2.1, happ.1⟩


/-! ## Claim C4 (amended) — once-notifiers. -/

set_option maxHeartbeats 2000000 in
/-- Claim C4, amended: a `once` notifier registered on a **literal** concrete
topic fires exactly once — the first matching subscription invokes the
callback and deletes the record, so a second subscription to the same topic
does not re-fire it.  A `once` notifier registered on a **wildcard** pattern
such as `red:*` fires on *every* matching concrete subscription and its
record is never removed, because the cleanup deletes
`_notifiers[customEvent]` (the concrete subscription topic) rather than the
wildcard key (source lines 705, 713, 720); the repository's test
`check notify() wildcard once` asserts this behaviour. -/
theorem C4_notifier (cbLit cbWild ow : Nat) (k1 k2 : Callback) :
    (countNotify (addSubscriber
        (addSubscriber (notify {} ["red:save"] cbLit ow true) none true "red:save" k1 none false).1
        none true "red:save" k2 none false).1.trace cbLit = 1 ∧
      (addSubscriber (notify {} ["red:save"] cbLit ow true) none true "red:save" k1
        none false).1.notifiers.lookup "red:save" = none) ∧
    (countNotify (addSubscriber
        (addSubscriber (notify {} ["red:*"] cbWild ow true) none true "red:save" k1 none false).1
        none true "red:create" k2 none false).1.trace cbWild = 2 ∧
      (addSubscriber
        (addSubscriber (notify {} ["red:*"] cbWild ow true) none true "red:save" k1 none false).1
        none true "red:create" k2 none false).1.notifiers.lookup "red:*" =
        some ⟨cbWild, ow, true⟩) := by
  simp [notify, addSubscriber, fireNotifiers, fireNotifier, setk, List.lookup,
    replaceEventWithStar, replaceEmitterWithStar, parseCE, parseWildcardCE, topicParts,
    splitColon, hasColon, partOk, partWord, isWordChar, erasek, countNotify, cbIds]


/-! ## Claim C5 (amended) — payload merging. -/

/-- Claim C5, amended: merging a caller payload copies each property whose
name is absent from the event object (own properties and prototype chain)
and never overwrites an existing event-object property; a writable data
property is re-installed through its original descriptor, while a
non-writable data property and an accessor property are copied by plain
assignment — an accessor is read once and lands as a plain writable data
property holding the snapshot, not as a live getter (the separate
`payloadGetters` parameter exists to keep getters alive). -/
theorem C5_merge (env : Nat → Nat) (pk : List String)
    (e payload : List (String × Descriptor)) :
    (∀ k d0, e.lookup k = some d0 →
      (mergePayload env pk e payload).lookup k = some d0) ∧
    (∀ k d, payload.lookup k = some d → e.lookup k = none → pk.contains k = false →
      (mergePayload env pk e payload).lookup k = some (mergeDesc env d)) :=
  ⟨fun k d0 h => mergePayload_keeps env pk e payload k d0 h,
   fun k d hp he hpk => mergePayload_new env pk e payload k d hp he hpk⟩


/-- Witness for `C5_merge`: an existing `target` property survives the merge
untouched, and an accessor payload property lands as a data snapshot. -/
theorem C5_merge_witness :
    List.lookup "target" [("target", Descriptor.data 9 true)] = some (.data 9 true) ∧
    (mergePayload (fun i => i + 1) baseEventKeys [("target", .data 9 true)]
      [("target", .data 0 true), ("x", .accessor 4)]).lookup "target" =
      some (.data 9 true) ∧
    List.lookup "x" [("target", Descriptor.data 0 true), ("x", Descriptor.accessor 4)] =
      some (.accessor 4) ∧
    (mergePayload (fun i => i + 1) baseEventKeys [("target", .data 9 true)]
      [("target", .data 0 true), ("x", .accessor 4)]).lookup "x" =
      some (.data 5 true) := by
  have happ := C5_merge (fun i => i + 1) baseEventKeys [("target", .data 9 true)]
    [("target", .data 0 true), ("x", .accessor 4)]
  exact ⟨by decide, happ.1 "target" (.data 9 true) (by decide), by decide,
    happ.2 "x" (.accessor 4) (by decide) (by decide) (by decide)⟩


/-! ## Claim C6 — re-entrancy guard. -/

/-- Claim C6: while a topic is mid-dispatch (it is in `_runningEvents`), a
nested emission of the same (well-formed) topic string returns `undefined`
and changes nothing except logging the loop warning — no subscriber, default
function or registry is touched; and every emission, nested or not, restores
`_runningEvents` on completion, so the topic can be emitted again later. -/
theorem C6_reentrancy (fuel : Nat) (st : EvState) (em : Obj) (t : String) (pl : DPayload) :
    (hasColon t = true → (parseCE t).isSome = true → st.running.contains t = true →
      emitD (fuel + 1) st em t pl = (none, { st with trace := st.trace ++ [.warnLoop t] })) ∧
    (emitD fuel st em t pl).2.running = st.running := by
  constructor
  · intro hc hp hrun
    simp only [emitD, hc, if_true]
    cases hpe : parseCE t with
    | none => rw [hpe] at hp; simp at hp
    | some pr =>
        obtain ⟨emN, evN⟩ := pr
        simp only [hpe, hrun, if_true]
  · exact ((emitD_pres fuel) st em t pl).2.1


/-- Witness for `C6_reentrancy` at a state already dispatching `a:b`. -/
theorem C6_reentrancy_witness :
    hasColon "a:b" = true ∧
    (parseCE "a:b").isSome = true ∧
    c6WitState.running.contains "a:b" = true ∧
    emitD 1 c6WitState instObj "a:b" {} =
      (none, { c6WitState with trace := c6WitState.trace ++ [.warnLoop "a:b"] }) ∧
    (emitD 1 c6WitState instObj "a:b" {}).2.running = c6WitState.running :=
  ⟨by decide, by decide, by decide,
   (C6_reentrancy 0 c6WitState instObj "a:b" {}).1 (by decide) (by decide) (by decide),
   (C6_reentrancy 0 c6WitState instObj "a:b" {}).2⟩


/-! ## Claim C7 (amended) — handle detachment and the no-empty-bucket
invariant. -/

/-- Claim C7, amended: detaching a subscription handle removes from its
phase array **every** record whose owner and callback equal the handle's —
exactly one when that owner/callback pair was registered once — and leaves
the other phase untouched; when both arrays become empty the topic's entry
is deleted; and after a handle detach, or any
`detach`/`detachAll`-style removal, the registry contains no topic entry
whose before and after arrays are both empty. -/
theorem C7_detach (st : EvState) (h : SubHandle) (l : Option Nat) (pat : String)
    (hnd : (st.subs.map Prod.fst).Nodup) (hinv : noEmptyBuckets st.subs = true) :
    topicPhase (detachHandle st h).subs h.customEvent h.before =
      (topicPhase st.subs h.customEvent h.before).filter (fun it => !(handleMatches h it)) ∧
    topicPhase (detachHandle st h).subs h.customEvent (!h.before) =
      topicPhase st.subs h.customEvent (!h.before) ∧
    ((topicPhase st.subs h.customEvent h.before).countP (fun it => handleMatches h it) = 1 →
      (topicPhase (detachHandle st h).subs h.customEvent h.before).length + 1 =
        (topicPhase st.subs h.customEvent h.before).length) ∧
    ((topicPhase st.subs h.customEvent h.before).filter (fun it => !(handleMatches h it)) = [] →
      topicPhase st.subs h.customEvent (!h.before) = [] →
      (detachHandle st h).subs.lookup h.customEvent = none) ∧
    noEmptyBuckets (detachHandle st h).subs = true ∧
    noEmptyBuckets (removeSubscribers st l pat).subs = true := by
  have hsubs : (detachHandle st h).subs =
      removeSubscriberSubs st.subs (h.listenerId.getD 0) h.before h.customEvent (some h.cb) :=
    removeSubscriber_subs st h.listenerId h.before h.customEvent (some h.cb)
  refine ⟨?_, ?_, ?_, ?_, ?_, ?_⟩
  · rw [hsubs]
    exact topicPhase_remove_self _ _ _ _ _ hnd
  · rw [hsubs]
    exact topicPhase_remove_other _ _ _ _ _ hnd
  · intro hcount
    rw [hsubs, topicPhase_remove_self _ _ _ _ _ hnd]
    have := length_filter_not (fun it => handleMatches h it)
      (topicPhase st.subs h.customEvent h.before)
    rw [hcount] at this
    simp only [handleMatches] at this ⊢
    omega
  · intro h1 h2
    rw [hsubs]
    exact removeSubscriberSubs_deletes _ _ _ _ _ hnd h1 h2
  · rw [hsubs]
    exact removeSubscriberSubs_noEmpty _ _ _ _ _ hinv
  · exact removeSubscribers_noEmpty st l pat hinv


/-- Witness for `C7_detach`: one registered record, one matching handle,
detaching removes exactly one record. -/
theorem C7_detach_witness :
    ((c7WitState.subs.map Prod.fst).Nodup ∧ noEmptyBuckets c7WitState.subs = true) ∧
    (topicPhase c7WitState.subs "a:b" true).countP
      (fun it => handleMatches c7Handle it) = 1 ∧
    (topicPhase (detachHandle c7WitState c7Handle).subs "a:b" true).length + 1 =
      (topicPhase c7WitState.subs "a:b" true).length := by
  have happ := C7_detach c7WitState c7Handle (some 1) "a:b" (by decide) (by decide)
  exact ⟨⟨by decide, by decide⟩, by decide, happ.2.2.1 (by decide)⟩


/-! ## Claim C8 (amended) — once-subscribers. -/

/-- Claim C8, amended: a `onceBefore`/`onceAfter` callback whose body
performs **no synchronous emit of its own** fires at most once across any
number of matching emissions, including back-to-back synchronous emissions
before the deferred detachment of its handle has run (`onceOnlyAt` states
exactly this: every record invoking the user callback is the once-wrapper
with an emit-free body).  The proviso cannot be weakened to "does not emit a
matching topic": the `_detached` flag is set only after the wrapped callback
returns, so any matching emission reached while the callback is still
executing — directly (`c8State`) or transitively through another topic's
subscriber (`c8TransState`) — re-enters the wrapper and fires it a second
time. -/
theorem C8_once (id0 flag0 : Nat) (es : List (Nat × Obj × String × DPayload)) (st : EvState)
    (h1 : onceOnlyAt st.subs id0 flag0 = true)
    (h2 : onceBudget st id0 flag0 ≤ 1) :
    countCb (runEmissions es st).trace id0 ≤ 1 := by
  induction es generalizing st with
  | nil =>
      exact le_trans (Nat.le_add_right _ _) h2
  | cons ep rest ih =>
      obtain ⟨fuel, em, t, pl⟩ := ep
      simp only [runEmissions]
      have hp := (emitD_pres fuel) st em t pl
      exact ih _ (by rw [hp.1]; exact h1) (le_trans (hp.2.2 id0 flag0 h1) h2)


/-- Witness for `C8_once`: two back-to-back emissions through a `*:*`
once-subscription with an emit-free callback fire it at most once. -/
theorem C8_once_witness :
    onceOnlyAt c8WitState.subs 9 0 = true ∧
    onceBudget c8WitState 9 0 ≤ 1 ∧
    countCb (runEmissions c8WitEmissions c8WitState).trace 9 ≤ 1 :=
  ⟨by decide, by decide, C8_once 9 0 c8WitEmissions c8WitState (by decide) (by decide)⟩


/-! ## Claim C10 — preventDefaultContinue. -/

/-- Claim C10: for every emission on a topic with a definition whose
`preventedFn` exists and is preventable, when a before-subscriber calls
`preventDefaultContinue(reason)` (and nothing halts or calls plain
`preventDefault`): `preventedFn` is invoked instead of `defaultFn`,
`status.ok` is `true`, and the after-subscribers still run (the trace grows
by the subscriber invocation, the `preventedFn` call, and the
after-subscriber invocations in order). -/
theorem C10_preventDefaultContinue (fuel : Nat) (st : EvState) (pid : Nat) (r : Option String) (d : CEDef)
    (pf : List Action) (aIds : List Nat)
    (hsub : st.subs.lookup "a:b" =
      some { b := [{ o := 1, cb := .plain pid [.preventDefaultContinueA r] }],
             a := aIds.map inert })
    (hwn : st.subs.lookup "*:b" = none) (hnw : st.subs.lookup "a:*" = none)
    (hww : st.subs.lookup "*:*" = none)
    (hce : st.ce.lookup "a:b" = some d)
    (hpf : d.preventedFn = some pf) (htame : tameBody pf = true)
    (hup : d.unPreventable = false)
    (hrun : st.running.contains "a:b" = false) :
    (emitD (fuel + 1) st instObj "a:b" {}).2.trace =
      st.trace ++ (.cbCall pid "b" :: .preventedFnCall "a:b" ::
        aIds.map (fun i => .cbCall i "b")) ∧
    (emitD (fuel + 1) st instObj "a:b" {}).2.subs = st.subs ∧
    (emitD (fuel + 1) st instObj "a:b" {}).2.running = st.running ∧
    ((emitD (fuel + 1) st instObj "a:b" {}).1.map fun e => e.status.ok) = some (some true) ∧
    ((emitD (fuel + 1) st instObj "a:b" {}).1.map fun e => e.status.preventedFn) = some true ∧
    ((emitD (fuel + 1) st instObj "a:b" {}).1.map fun e => e.status.defaultFn) = some false := by
  simp only [emitD, hasColon_ab, if_true, parseCE_ab, hrun, Bool.false_eq_true, if_false,
    emitCore, emitPhases, hce, hsub, hwn, hnw, hww, append_star_b, append_a_star]
  simp [invokeBuckets, invokeSubsBucket_some, invokeSubsBucket_halted, invokeSubsBucket_none,
    invokeSubsList, invokeSubsList_inert,
    invokeCallback, runActions, runAction, applyPreventDefaultContinue, hup, runDefaultPhase,
    setOk, hpf, htame, runActions_tame_state, runActions_tame_silent, runActions_tame_halted,
    runActions_tame_ok, runActions_tame_prevFn, runActions_tame_defFn, runActions_tame_type,
    runActions_tame_unSil, List.append_assoc]


/-- Witness for `C10_preventDefaultContinue`. -/
theorem C10_preventDefaultContinue_witness :
    c10WitState.subs.lookup "a:b" =
      some { b := [{ o := 1, cb := .plain 7 [.preventDefaultContinueA none] }],
             a := [9].map inert } ∧
    c10WitState.ce.lookup "a:b" = some { defaultFn := some [], preventedFn := some [] } ∧
    ((emitD 1 c10WitState instObj "a:b" {}).1.map fun e => e.status.ok) = some (some true) ∧
    ((emitD 1 c10WitState instObj "a:b" {}).1.map fun e => e.status.preventedFn) = some true ∧
    ((emitD 1 c10WitState instObj "a:b" {}).1.map fun e => e.status.defaultFn) = some false ∧
    (emitD 1 c10WitState instObj "a:b" {}).2.trace =
      c10WitState.trace ++ (.cbCall 7 "b" :: .preventedFnCall "a:b" ::
        [9].map (fun i => TraceEv.cbCall i "b")) := by
  have happ := C10_preventDefaultContinue 0 c10WitState 7 none
    { defaultFn := some [], preventedFn := some [] } [] [9]
    (by decide) (by decide) (by decide) (by decide) (by decide) (by decide) (by decide)
    (by decide) (by decide)
  exact ⟨by decide, by decide, happ.2.2.2.1, happ.2.2.2.2.1, happ.2.2.2.2.2, happ.1⟩

end ItsaEvent
